import Mathlib

/-!
Verification model of the marshr-rs Ruby Marshal (4.8) codec.

Shallow embedding of `src/values.rs`, `src/decode/load.rs` and
`src/encode/dump.rs`:

* bytes are `Nat` values below 256; a byte stream is a `List Nat`;
* Rust `String` data is kept as its UTF-8 byte list (`String::from_utf8`
  is modelled by an explicit UTF-8 validity check);
* `i32` / `i64` are `Int`, with two's-complement conversion applied
  exactly at the points where the source depends on the machine width;
* the `f64` payload of a Float object is kept as the literal byte
  sequence from the wire; the numeric `strtod` parse and `to_string`
  formatting are outside the embedding and no claim below depends on them;
* Rust `HashMap` is modelled as an insertion-ordered association list
  whose `insert` replaces the value of an existing key in place, as
  Rust's `HashMap::insert` does.  Rust's iteration order is unspecified;
  the model iterates in insertion order, and every concrete statement
  proved below about multi-pair maps is independent of that choice
  (the maps involved hold at most one pair when they are iterated);
* a Rust panic (an `unwrap` of an `Err`/`None`, an out-of-bounds `Vec`
  index, or an explicit `panic!`) is modelled by the distinguished
  errors `LoadError.Panic` / `DumpError.Panic`;
* the recursive `read_value` / `dump_value` take a fuel argument, a
  modelling artifact for Rust's unbounded recursion; `OutOfFuel` is
  never produced once the fuel exceeds the input length, since every
  recursive call first consumes the one-byte tag.
-/

deriving instance DecidableEq for Except

namespace Marshr

/-- `RubyValue` from `src/values.rs`: the small tagged union.  Scalars carry
their payload; reference variants carry an `ObjectID` (here `Nat`) into the
object table; `Symbol` carries a `SymbolID`. -/
inductive RubyValue where
  | Nil
  | Boolean (b : Bool)
  | FixNum (n : Int)
  | Symbol (id : Nat)
  | Array (id : Nat)
  | BigNum (id : Nat)
  | Class (id : Nat)
  | Module (id : Nat)
  | ClassOrModule (id : Nat)
  | Float (id : Nat)
  | Hash (id : Nat)
  | HashWithDefault (id : Nat)
  | Object (id : Nat)
  | RegExp (id : Nat)
  | String (id : Nat)
  | Struct (id : Nat)
  | UserClass (id : Nat)
  | UserDefined (id : Nat)
  | UserMarshal (id : Nat)
  | Uninitialized (id : Nat)
deriving DecidableEq, Repr

/-- `RubyObject` from `src/values.rs`: the heavy variant stored in the arena,
plus the `Empty` placeholder.  `Hash` / instance-variable maps are Rust
`HashMap`s, modelled as insertion-ordered association lists (see module
comment).  `Float` keeps the literal bytes read from the wire.  The
sub-structures `RubyString`, `RegExp`, `Struct`, `Object`, `UserClass`,
`UserDefined`, `UserMarshal` of the source are inlined as constructor
fields in source order. -/
inductive RubyObject where
  | Empty
  | Array (elems : List RubyValue)
  | Hash (pairs : List (RubyValue × RubyValue))
  | HashWithDefault (pairs : List (RubyValue × RubyValue)) (default : RubyValue)
  | Float (literal : List Nat)
  | Class (name : List Nat)
  | Module (name : List Nat)
  | ClassOrModule (name : List Nat)
  | String (s : List Nat) (instance_variables : Option (List (Nat × RubyValue)))
  | BigNum (n : Int)
  | RegExp (pattern : List Nat) (options : Int)
      (instance_variables : Option (List (Nat × RubyValue)))
  | Struct (name : Nat) (members : List (Nat × RubyValue))
  | Object (class_name : Nat) (instance_variables : List (Nat × RubyValue))
  | UserClass (name : Nat) (wrapped_object : RubyValue)
      (instance_variables : Option (List (Nat × RubyValue)))
  | UserDefined (class_name : Nat) (data : List Nat)
      (instance_variables : Option (List (Nat × RubyValue)))
  | UserMarshal (class_name : Nat) (wrapped_object : RubyValue)
deriving DecidableEq, Repr

/-- `Root` from `src/values.rs`: the symbol vector, the object vector and the
root value. -/
structure Root where
  symbols : List (List Nat)
  objects : List RubyObject
  root : RubyValue
deriving DecidableEq, Repr

/-- `Root::new(root, symbols, objects)`. -/
def Root.new (root : RubyValue) (symbols : List (List Nat))
    (objects : List RubyObject) : Root :=
  ⟨symbols, objects, root⟩

/-- `Root::get_root`. -/
def Root.get_root (r : Root) : RubyValue := r.root

/-- `Root::get_symbols`. -/
def Root.get_symbols (r : Root) : List (List Nat) := r.symbols

/-- `Root::get_objects`. -/
def Root.get_objects (r : Root) : List RubyObject := r.objects

/-- `Root::get_symbol`: `self.symbols.get(id)`. -/
def Root.get_symbol (r : Root) (id : Nat) : Option (List Nat) :=
  r.symbols.get? id

/-- `Root::get_object`: `self.objects.get(id)`. -/
def Root.get_object (r : Root) (id : Nat) : Option RubyObject :=
  r.objects.get? id

/-- `Root::get_symbol_id`: linear scan for a symbol's index. -/
def Root.get_symbol_id (r : Root) (symbol : List Nat) : Option Nat :=
  r.symbols.indexOf? symbol

/-- `LoadError` from `src/decode/load.rs` (messages omitted), extended with
`Panic` (models a Rust panic) and `OutOfFuel` (modelling artifact of the
fueled recursion, unreachable when fuel exceeds the input length). -/
inductive LoadError where
  | IoError
  | ParserError
  | Panic
  | OutOfFuel
deriving DecidableEq, Repr

/-- The loader's mutable state: the not-yet-consumed input of the reader,
and the growing symbol and object tables of `Loader`. -/
structure LoaderState where
  input : List Nat
  symbols : List (List Nat)
  objects : List RubyObject
deriving DecidableEq, Repr

/-- Two's-complement reading of a `Nat` as an `i32` value. -/
def toSigned32 (m : Nat) : Int :=
  if m % 2 ^ 32 < 2 ^ 31 then ((m % 2 ^ 32 : Nat) : Int)
  else ((m % 2 ^ 32 : Nat) : Int) - 2 ^ 32

/-- Two's-complement reading of a `Nat` as an `i64` value. -/
def toSigned64 (m : Nat) : Int :=
  if m % 2 ^ 64 < 2 ^ 63 then ((m % 2 ^ 64 : Nat) : Int)
  else ((m % 2 ^ 64 : Nat) : Int) - 2 ^ 64

/-- Little-endian value of a byte list. -/
def leSum : List Nat → Nat
  | [] => 0
  | b :: bs => b + 256 * leSum bs

/-- `Loader::read_fixnum`, on the raw byte stream.

The first byte `c` is taken as `u8`; if `(c as i8) < 0` the source
replaces it by its wrapping negation (`int_len`).  When `0 < int_len < 5`
the source reads `int_len` following bytes into a zeroed 4-byte buffer:
the positive case is `i32::from_le_bytes` of that buffer, i.e.
`toSigned32 (leSum bytes)`; the negative case starts from `-1` and
overwrites the low `int_len` bytes, leaving the high bytes all-ones,
i.e. the signed reading of `leSum bytes + (2^32 - 2^(8*int_len))`.
Otherwise the source reinterprets the POSSIBLY NEGATED byte `int_len` as
`i8` and returns `value - 5` if positive, else `value + 5`.  (Feeding the
negated byte into this branch is faithful to the source; it makes the
single-byte markers 0x81..0xFB decode to the negation of the value the
format assigns them.) -/
def fixnum_from_bytes : List Nat → Except LoadError (Int × List Nat)
  | [] => .error .IoError
  | c :: rest =>
    if c = 0 then .ok (0, rest)
    else
      let is_positive := c < 128
      let int_len := if c < 128 then c else 256 - c
      if 0 < int_len ∧ int_len < 5 then
        if rest.length < int_len then .error .IoError
        else
          let bytes := rest.take int_len
          if is_positive then
            .ok (toSigned32 (leSum bytes), rest.drop int_len)
          else
            .ok (toSigned32 (leSum bytes + (2 ^ 32 - 2 ^ (8 * int_len))),
                 rest.drop int_len)
      else
        let value : Int := if int_len < 128 then (int_len : Int) else (int_len : Int) - 256
        if 0 < value then .ok (value - 5, rest) else .ok (value + 5, rest)

/-- The multi-byte loop of `Dumper::write_fixnum`: emit low-order bytes of
`n`, shifting arithmetically by 8 each step, stopping as soon as the
remaining value is `0` (marker = number of bytes emitted) or `-1`
(marker = its negation).  The first component is the payload, the second
the signed marker; marker `0` is the unreachable loop-exhaustion case. -/
def fixnum_payload : Nat → Int → List Nat × Int
  | 0, _ => ([], 0)
  | k + 1, n =>
    let b := (n.emod 256).toNat
    let n2 := n.fdiv 256
    if n2 = 0 then ([b], (4 - (k : Int)))
    else if n2 = -1 then ([b], -(4 - (k : Int)))
    else
      let r := fixnum_payload k n2
      (b :: r.1, r.2)

/-- `Dumper::write_fixnum`: `0` is one zero byte; `1..=122` is one byte
`n + 5`; `-123..=-1` is one byte `(n - 5)` as `i8` (i.e. `n + 251`);
otherwise the marker byte followed by 1-4 little-endian payload bytes. -/
def write_fixnum (n : Int) : List Nat :=
  if n = 0 then [0]
  else if 1 ≤ n ∧ n ≤ 122 then [(n + 5).toNat]
  else if -123 ≤ n ∧ n ≤ -1 then [(n + 251).toNat]
  else
    let r := fixnum_payload 4 n
    (if 0 ≤ r.2 then r.2.toNat else 256 - r.2.natAbs) :: r.1

/-- `Loader::read_byte_sequence`, on the raw byte stream.  NOTE: the source
converts the length with `self.read_fixnum()?.try_into().unwrap()`, so a
negative length fixnum PANICS (modelled by `Panic`) instead of producing a
`ParserError`; a non-negative length larger than the remaining input is an
`IoError` from `read_exact`. -/
def byte_sequence_from_bytes (input : List Nat) :
    Except LoadError (List Nat × List Nat) :=
  match fixnum_from_bytes input with
  | .error e => .error e
  | .ok (len, rest) =>
    if len < 0 then .error .Panic
    else if rest.length < len.toNat then .error .IoError
    else .ok (rest.take len.toNat, rest.drop len.toNat)

/-- Byte in the UTF-8 continuation range `0x80..=0xBF`. -/
def is_cont (b : Nat) : Bool := Nat.ble 128 b && Nat.ble b 191

/-- The fueled worker of `isValidUtf8`: each step consumes one encoded
code point (1-4 bytes) and one unit of fuel, so fuel equal to the list
length never runs out (fuel exhaustion on a non-empty list answers
`false`, an unreachable defensive case). -/
def utf8_loop : Nat → List Nat → Bool
  | _, [] => true
  | 0, _ :: _ => false
  | f + 1, b :: rest =>
    if b ≤ 127 then utf8_loop f rest
    else if 194 ≤ b ∧ b ≤ 223 then
      match rest with
      | c1 :: r => is_cont c1 && utf8_loop f r
      | [] => false
    else if b = 224 then
      match rest with
      | c1 :: c2 :: r =>
        (Nat.ble 160 c1 && Nat.ble c1 191) && is_cont c2 && utf8_loop f r
      | _ => false
    else if (225 ≤ b ∧ b ≤ 236) ∨ b = 238 ∨ b = 239 then
      match rest with
      | c1 :: c2 :: r => is_cont c1 && is_cont c2 && utf8_loop f r
      | _ => false
    else if b = 237 then
      match rest with
      | c1 :: c2 :: r =>
        (Nat.ble 128 c1 && Nat.ble c1 159) && is_cont c2 && utf8_loop f r
      | _ => false
    else if b = 240 then
      match rest with
      | c1 :: c2 :: c3 :: r =>
        (Nat.ble 144 c1 && Nat.ble c1 191) && is_cont c2 && is_cont c3 &&
          utf8_loop f r
      | _ => false
    else if 241 ≤ b ∧ b ≤ 243 then
      match rest with
      | c1 :: c2 :: c3 :: r =>
        is_cont c1 && is_cont c2 && is_cont c3 && utf8_loop f r
      | _ => false
    else if b = 244 then
      match rest with
      | c1 :: c2 :: c3 :: r =>
        (Nat.ble 128 c1 && Nat.ble c1 143) && is_cont c2 && is_cont c3 &&
          utf8_loop f r
      | _ => false
    else false

/-- UTF-8 validity of a byte list, as checked by Rust's
`String::from_utf8` (rejecting overlong forms, surrogates and code points
above `0x10FFFF`). -/
def isValidUtf8 (l : List Nat) : Bool := utf8_loop l.length l

/-- `Loader::read_sequence`: a byte sequence converted by
`String::from_utf8` (failure is a `ParserError` via the `From` impl); the
Rust `String` is kept as its UTF-8 byte list. -/
def sequence_from_bytes (input : List Nat) :
    Except LoadError (List Nat × List Nat) :=
  match byte_sequence_from_bytes input with
  | .error e => .error e
  | .ok (bs, rest) =>
    if isValidUtf8 bs then .ok (bs, rest) else .error .ParserError

/-- `Loader::read_fixnum` acting on the loader state. -/
def read_fixnum (s : LoaderState) : Except LoadError (Int × LoaderState) :=
  match fixnum_from_bytes s.input with
  | .error e => .error e
  | .ok (n, rest) => .ok (n, { s with input := rest })

/-- `Loader::read_byte_sequence` acting on the loader state. -/
def read_byte_sequence (s : LoaderState) :
    Except LoadError (List Nat × LoaderState) :=
  match byte_sequence_from_bytes s.input with
  | .error e => .error e
  | .ok (bs, rest) => .ok (bs, { s with input := rest })

/-- `Loader::read_sequence` acting on the loader state. -/
def read_sequence (s : LoaderState) :
    Except LoadError (List Nat × LoaderState) :=
  match sequence_from_bytes s.input with
  | .error e => .error e
  | .ok (bs, rest) => .ok (bs, { s with input := rest })

/-- `Loader::read_symbol`: parse the name, push it onto the symbol table,
return its index (the table's previous length). -/
def read_symbol (s : LoaderState) : Except LoadError (Nat × LoaderState) :=
  match sequence_from_bytes s.input with
  | .error e => .error e
  | .ok (name, rest) =>
    .ok (s.symbols.length,
         { s with input := rest, symbols := s.symbols ++ [name] })

/-- `Loader::read_symbol_link`: a fixnum index into the symbol table;
negative or out-of-range indices are `ParserError`s. -/
def read_symbol_link (s : LoaderState) : Except LoadError (Nat × LoaderState) :=
  match fixnum_from_bytes s.input with
  | .error e => .error e
  | .ok (k, rest) =>
    if k < 0 then .error .ParserError
    else if s.symbols.length ≤ k.toNat then .error .ParserError
    else .ok (k.toNat, { s with input := rest })

/-- The value produced by `Loader::read_object_link` for the object stored
at slot `id`: `Empty` yields `Uninitialized`, every other variant yields
the matching `RubyValue` variant. -/
def link_value (obj : RubyObject) (id : Nat) : RubyValue :=
  match obj with
  | .Empty => .Uninitialized id
  | .Array _ => .Array id
  | .Float _ => .Float id
  | .Hash _ => .Hash id
  | .HashWithDefault _ _ => .HashWithDefault id
  | .Class _ => .Class id
  | .Module _ => .Module id
  | .ClassOrModule _ => .ClassOrModule id
  | .String _ _ => .String id
  | .BigNum _ => .BigNum id
  | .RegExp _ _ _ => .RegExp id
  | .Struct _ _ => .Struct id
  | .Object _ _ => .Object id
  | .UserClass _ _ _ => .UserClass id
  | .UserDefined _ _ _ => .UserDefined id
  | .UserMarshal _ _ => .UserMarshal id

/-- `Loader::read_object_link`: read fixnum `k`; a negative `k` (failed
`usize::try_from`) or an out-of-range `k` is a `ParserError`; otherwise the
value matching the kind of slot `k`. -/
def read_object_link (s : LoaderState) :
    Except LoadError (RubyValue × LoaderState) :=
  match fixnum_from_bytes s.input with
  | .error e => .error e
  | .ok (k, rest) =>
    if k < 0 then .error .ParserError
    else
      match s.objects.get? k.toNat with
      | none => .error .ParserError
      | some obj => .ok (link_value obj k.toNat, { s with input := rest })

/-- `Loader::read_float`: a byte sequence pushed as a Float object.  The
source maps `inf` / `-inf` / `nan` to the IEEE specials and otherwise
parses with `libc::strtod`; the numeric value is outside this embedding
(see module comment), so the object keeps the literal bytes. -/
def read_float (s : LoaderState) : Except LoadError (Nat × LoaderState) :=
  match byte_sequence_from_bytes s.input with
  | .error e => .error e
  | .ok (lit, rest) =>
    .ok (s.objects.length,
         { s with input := rest, objects := s.objects ++ [RubyObject.Float lit] })

/-- `Loader::read_class`. -/
def read_class (s : LoaderState) : Except LoadError (Nat × LoaderState) :=
  match sequence_from_bytes s.input with
  | .error e => .error e
  | .ok (name, rest) =>
    .ok (s.objects.length,
         { s with input := rest, objects := s.objects ++ [RubyObject.Class name] })

/-- `Loader::read_module`. -/
def read_module (s : LoaderState) : Except LoadError (Nat × LoaderState) :=
  match sequence_from_bytes s.input with
  | .error e => .error e
  | .ok (name, rest) =>
    .ok (s.objects.length,
         { s with input := rest, objects := s.objects ++ [RubyObject.Module name] })

/-- `Loader::read_class_or_module`. -/
def read_class_or_module (s : LoaderState) :
    Except LoadError (Nat × LoaderState) :=
  match sequence_from_bytes s.input with
  | .error e => .error e
  | .ok (name, rest) =>
    .ok (s.objects.length,
         { s with input := rest,
                  objects := s.objects ++ [RubyObject.ClassOrModule name] })

/-- `Loader::read_string`: raw bytes, no charset assumption, no instance
variables yet. -/
def read_string (s : LoaderState) : Except LoadError (Nat × LoaderState) :=
  match byte_sequence_from_bytes s.input with
  | .error e => .error e
  | .ok (bs, rest) =>
    .ok (s.objects.length,
         { s with input := rest,
                  objects := s.objects ++ [RubyObject.String bs none] })

/-- Shift-masked little-endian accumulation of `Loader::read_bignum`:
byte `i` contributes `byte * 2^((8*i) % 64)`, reflecting the release-mode
masking of the `i64` shift amount (spec section 9 documents the silent
overflow for magnitudes beyond the i64 range). -/
def leSum64 : List Nat → Nat → Nat
  | [], _ => 0
  | b :: bs, i => b * 2 ^ ((8 * i) % 64) + leSum64 bs (i + 1)

/-- `Loader::read_bignum`: a `+`/`-` sign byte (anything else is a
`ParserError`), a fixnum half-word count `h` (negative is a `ParserError`),
then `2*h` little-endian magnitude bytes assembled into an `i64` with
wrapping (release-mode) arithmetic, negated for `-`. -/
def read_bignum (s : LoaderState) : Except LoadError (Nat × LoaderState) :=
  match s.input with
  | [] => .error .IoError
  | sign :: r0 =>
    if sign ≠ 43 ∧ sign ≠ 45 then .error .ParserError
    else
      let is_positive := sign = 43
      match fixnum_from_bytes r0 with
      | .error e => .error e
      | .ok (len, r1) =>
        if len < 0 then .error .ParserError
        else
          let length := len.toNat * 2
          if r1.length < length then .error .IoError
          else
            let bytes := r1.take length
            let magnitude := leSum64 bytes 0
            let value :=
              if is_positive then toSigned64 magnitude
              else toSigned64 (2 ^ 64 - magnitude % 2 ^ 64)
            .ok (s.objects.length,
                 { s with input := r1.drop length,
                          objects := s.objects ++ [RubyObject.BigNum value] })

/-- `Loader::read_regexp`: pattern sequence, then one options byte stored
as `i8`. -/
def read_regexp (s : LoaderState) : Except LoadError (Nat × LoaderState) :=
  match sequence_from_bytes s.input with
  | .error e => .error e
  | .ok (pattern, r1) =>
    match r1 with
    | [] => .error .IoError
    | b :: r2 =>
      let options : Int := if b < 128 then (b : Int) else (b : Int) - 256
      .ok (s.objects.length,
           ⟨r2, s.symbols, s.objects ++ [RubyObject.RegExp pattern options none]⟩)

/-- Rust `HashMap::insert` on the association-list model: replace the
value of an existing key in place (keeping the original key), otherwise
append the pair. -/
def hm_insert {α β : Type} [DecidableEq α] (m : List (α × β)) (k : α) (v : β) :
    List (α × β) :=
  match m with
  | [] => [(k, v)]
  | (k1, v1) :: t => if k1 = k then (k1, v) :: t else (k1, v1) :: hm_insert t k v

/-- The read loop of an array's elements (`for _ in 0..array_len`). -/
def read_values (rv : LoaderState → Except LoadError (RubyValue × LoaderState)) :
    Nat → LoaderState → Except LoadError (List RubyValue × LoaderState)
  | 0, s => .ok ([], s)
  | n + 1, s =>
    match rv s with
    | .error e => .error e
    | .ok (v, s1) =>
      match read_values rv n s1 with
      | .error e => .error e
      | .ok (vs, s2) => .ok (v :: vs, s2)

/-- The pair loop of `Loader::read_value_pairs`: read key then value,
`HashMap::insert` each pair. -/
def read_value_pairs_loop
    (rv : LoaderState → Except LoadError (RubyValue × LoaderState)) :
    Nat → LoaderState → List (RubyValue × RubyValue) →
      Except LoadError (List (RubyValue × RubyValue) × LoaderState)
  | 0, s, acc => .ok (acc, s)
  | n + 1, s, acc =>
    match rv s with
    | .error e => .error e
    | .ok (k, s1) =>
      match rv s1 with
      | .error e => .error e
      | .ok (v, s2) => read_value_pairs_loop rv n s2 (hm_insert acc k v)

/-- `Loader::read_value_pairs`: fixnum pair count (negative is a
`ParserError`), then the pair loop. -/
def read_value_pairs
    (rv : LoaderState → Except LoadError (RubyValue × LoaderState))
    (s : LoaderState) :
    Except LoadError (List (RubyValue × RubyValue) × LoaderState) :=
  match read_fixnum s with
  | .error e => .error e
  | .ok (n, s1) =>
    if n < 0 then .error .ParserError
    else read_value_pairs_loop rv n.toNat s1 []

/-- The pair loop of `Loader::read_value_pairs_symbol_keys`: each key must
be a `Symbol` value, otherwise `ParserError`. -/
def read_symbol_pairs_loop
    (rv : LoaderState → Except LoadError (RubyValue × LoaderState)) :
    Nat → LoaderState → List (Nat × RubyValue) →
      Except LoadError (List (Nat × RubyValue) × LoaderState)
  | 0, s, acc => .ok (acc, s)
  | n + 1, s, acc =>
    match rv s with
    | .error e => .error e
    | .ok (.Symbol sid, s1) =>
      match rv s1 with
      | .error e => .error e
      | .ok (v, s2) => read_symbol_pairs_loop rv n s2 (hm_insert acc sid v)
    | .ok (_, _) => .error .ParserError

/-- `Loader::read_value_pairs_symbol_keys`. -/
def read_value_pairs_symbol_keys
    (rv : LoaderState → Except LoadError (RubyValue × LoaderState))
    (s : LoaderState) :
    Except LoadError (List (Nat × RubyValue) × LoaderState) :=
  match read_fixnum s with
  | .error e => .error e
  | .ok (n, s1) =>
    if n < 0 then .error .ParserError
    else read_symbol_pairs_loop rv n.toNat s1 []

/-- `Loader::read_array`: fixnum length (negative is a `ParserError`),
slot-first allocation of an `Empty` placeholder, the element loop, then
the slot is overwritten with the finished array. -/
def read_array (rv : LoaderState → Except LoadError (RubyValue × LoaderState))
    (s : LoaderState) : Except LoadError (Nat × LoaderState) :=
  match read_fixnum s with
  | .error e => .error e
  | .ok (len, s1) =>
    if len < 0 then .error .ParserError
    else
      let array_id := s1.objects.length
      let s2 := { s1 with objects := s1.objects ++ [RubyObject.Empty] }
      match read_values rv len.toNat s2 with
      | .error e => .error e
      | .ok (elems, s3) =>
        .ok (array_id,
             { s3 with objects := s3.objects.set array_id (RubyObject.Array elems) })

/-- `Loader::read_hash`: slot-first allocation, then the pair reader, then
the slot is overwritten. -/
def read_hash (rv : LoaderState → Except LoadError (RubyValue × LoaderState))
    (s : LoaderState) : Except LoadError (Nat × LoaderState) :=
  let hash_id := s.objects.length
  let s1 := { s with objects := s.objects ++ [RubyObject.Empty] }
  match read_value_pairs rv s1 with
  | .error e => .error e
  | .ok (pairs, s2) =>
    .ok (hash_id,
         { s2 with objects := s2.objects.set hash_id (RubyObject.Hash pairs) })

/-- `Loader::read_hash_with_default`: like `read_hash` with one trailing
default value. -/
def read_hash_with_default
    (rv : LoaderState → Except LoadError (RubyValue × LoaderState))
    (s : LoaderState) : Except LoadError (Nat × LoaderState) :=
  let hash_id := s.objects.length
  let s1 := { s with objects := s.objects ++ [RubyObject.Empty] }
  match read_value_pairs rv s1 with
  | .error e => .error e
  | .ok (pairs, s2) =>
    match rv s2 with
    | .error e => .error e
    | .ok (default, s3) =>
      .ok (hash_id,
           { s3 with objects :=
               s3.objects.set hash_id (RubyObject.HashWithDefault pairs default) })

/-- `Loader::read_struct`: slot-first allocation; the name value must be a
`Symbol`, then symbol-keyed members. -/
def read_struct (rv : LoaderState → Except LoadError (RubyValue × LoaderState))
    (s : LoaderState) : Except LoadError (Nat × LoaderState) :=
  let struct_id := s.objects.length
  let s1 := { s with objects := s.objects ++ [RubyObject.Empty] }
  match rv s1 with
  | .error e => .error e
  | .ok (.Symbol name, s2) =>
    match read_value_pairs_symbol_keys rv s2 with
    | .error e => .error e
    | .ok (members, s3) =>
      .ok (struct_id,
           { s3 with objects := s3.objects.set struct_id (RubyObject.Struct name members) })
  | .ok (_, _) => .error .ParserError

/-- `Loader::read_object`: slot-first allocation; class-name `Symbol`,
then symbol-keyed instance variables. -/
def read_object (rv : LoaderState → Except LoadError (RubyValue × LoaderState))
    (s : LoaderState) : Except LoadError (Nat × LoaderState) :=
  let object_id := s.objects.length
  let s1 := { s with objects := s.objects ++ [RubyObject.Empty] }
  match rv s1 with
  | .error e => .error e
  | .ok (.Symbol class_name, s2) =>
    match read_value_pairs_symbol_keys rv s2 with
    | .error e => .error e
    | .ok (ivars, s3) =>
      .ok (object_id,
           { s3 with objects := s3.objects.set object_id (RubyObject.Object class_name ivars) })
  | .ok (_, _) => .error .ParserError

/-- `Loader::read_user_class`: slot-first allocation; name `Symbol`, then
one wrapped value. -/
def read_user_class
    (rv : LoaderState → Except LoadError (RubyValue × LoaderState))
    (s : LoaderState) : Except LoadError (Nat × LoaderState) :=
  let user_class_id := s.objects.length
  let s1 := { s with objects := s.objects ++ [RubyObject.Empty] }
  match rv s1 with
  | .error e => .error e
  | .ok (.Symbol name, s2) =>
    match rv s2 with
    | .error e => .error e
    | .ok (wrapped, s3) =>
      .ok (user_class_id,
           { s3 with objects :=
               s3.objects.set user_class_id (RubyObject.UserClass name wrapped none) })
  | .ok (_, _) => .error .ParserError

/-- `Loader::read_user_defined`: slot-first allocation; class-name
`Symbol`, then the opaque byte payload. -/
def read_user_defined
    (rv : LoaderState → Except LoadError (RubyValue × LoaderState))
    (s : LoaderState) : Except LoadError (Nat × LoaderState) :=
  let user_defined_id := s.objects.length
  let s1 := { s with objects := s.objects ++ [RubyObject.Empty] }
  match rv s1 with
  | .error e => .error e
  | .ok (.Symbol class_name, s2) =>
    match read_byte_sequence s2 with
    | .error e => .error e
    | .ok (data, s3) =>
      .ok (user_defined_id,
           { s3 with objects :=
               s3.objects.set user_defined_id (RubyObject.UserDefined class_name data none) })
  | .ok (_, _) => .error .ParserError

/-- `Loader::read_user_marshal`: slot-first allocation; class-name
`Symbol`, then one wrapped value. -/
def read_user_marshal
    (rv : LoaderState → Except LoadError (RubyValue × LoaderState))
    (s : LoaderState) : Except LoadError (Nat × LoaderState) :=
  let user_marshal_id := s.objects.length
  let s1 := { s with objects := s.objects ++ [RubyObject.Empty] }
  match rv s1 with
  | .error e => .error e
  | .ok (.Symbol class_name, s2) =>
    match rv s2 with
    | .error e => .error e
    | .ok (wrapped, s3) =>
      .ok (user_marshal_id,
           { s3 with objects :=
               s3.objects.set user_marshal_id (RubyObject.UserMarshal class_name wrapped) })
  | .ok (_, _) => .error .ParserError

/-- Overwrite object slot `id`. -/
def set_object (s : LoaderState) (id : Nat) (obj : RubyObject) : LoaderState :=
  { s with objects := s.objects.set id obj }

/-- `Loader::read_value_with_instance_variables`: read the wrapped value,
then the symbol-keyed pair map; install the map when the target object is
a `String`, `RegExp`, `UserClass` or `UserDefined` (a slot of any other
kind under those value variants is the source's `panic!("Got wrong object
type")`, modelled by `Panic`); every other value kind is a `ParserError`. -/
def read_value_with_instance_variables
    (rv : LoaderState → Except LoadError (RubyValue × LoaderState))
    (s : LoaderState) : Except LoadError (RubyValue × LoaderState) :=
  match rv s with
  | .error e => .error e
  | .ok (value, s1) =>
    match read_value_pairs_symbol_keys rv s1 with
    | .error e => .error e
    | .ok (ivars, s2) =>
      match value with
      | .String id =>
        match s2.objects.get? id with
        | some (.String bs _) =>
          .ok (value, set_object s2 id (.String bs (some ivars)))
        | some _ => .error .Panic
        | none => .error .Panic
      | .RegExp id =>
        match s2.objects.get? id with
        | some (.RegExp p o _) =>
          .ok (value, set_object s2 id (.RegExp p o (some ivars)))
        | some _ => .error .Panic
        | none => .error .Panic
      | .UserClass id =>
        match s2.objects.get? id with
        | some (.UserClass n w _) =>
          .ok (value, set_object s2 id (.UserClass n w (some ivars)))
        | some _ => .error .Panic
        | none => .error .Panic
      | .UserDefined id =>
        match s2.objects.get? id with
        | some (.UserDefined c d _) =>
          .ok (value, set_object s2 id (.UserDefined c d (some ivars)))
        | some _ => .error .Panic
        | none => .error .Panic
      | _ => .error .ParserError

/-- `Loader::read_value`: one tag byte, then the 23-way dispatch of the
source (`d` and unknown tags are `ParserError`s).  The fuel only bounds
the recursion depth; every recursive call consumes at least the tag byte,
so `load`'s choice of fuel can never run out. -/
def read_value : Nat → LoaderState → Except LoadError (RubyValue × LoaderState)
  | 0, _ => .error .OutOfFuel
  | fuel + 1, s =>
    match s.input with
    | [] => .error .IoError
    | b :: rest =>
      let s1 : LoaderState := ⟨rest, s.symbols, s.objects⟩
      match b with
      | 48 => .ok (.Nil, s1)
      | 84 => .ok (.Boolean true, s1)
      | 70 => .ok (.Boolean false, s1)
      | 105 =>
        match read_fixnum s1 with
        | .error e => .error e
        | .ok (n, s2) => .ok (.FixNum n, s2)
      | 58 =>
        match read_symbol s1 with
        | .error e => .error e
        | .ok (id, s2) => .ok (.Symbol id, s2)
      | 59 =>
        match read_symbol_link s1 with
        | .error e => .error e
        | .ok (id, s2) => .ok (.Symbol id, s2)
      | 91 =>
        match read_array (fun st => read_value fuel st) s1 with
        | .error e => .error e
        | .ok (id, s2) => .ok (.Array id, s2)
      | 102 =>
        match read_float s1 with
        | .error e => .error e
        | .ok (id, s2) => .ok (.Float id, s2)
      | 64 => read_object_link s1
      | 123 =>
        match read_hash (fun st => read_value fuel st) s1 with
        | .error e => .error e
        | .ok (id, s2) => .ok (.Hash id, s2)
      | 125 =>
        match read_hash_with_default (fun st => read_value fuel st) s1 with
        | .error e => .error e
        | .ok (id, s2) => .ok (.HashWithDefault id, s2)
      | 99 =>
        match read_class s1 with
        | .error e => .error e
        | .ok (id, s2) => .ok (.Class id, s2)
      | 109 =>
        match read_module s1 with
        | .error e => .error e
        | .ok (id, s2) => .ok (.Module id, s2)
      | 77 =>
        match read_class_or_module s1 with
        | .error e => .error e
        | .ok (id, s2) => .ok (.ClassOrModule id, s2)
      | 34 =>
        match read_string s1 with
        | .error e => .error e
        | .ok (id, s2) => .ok (.String id, s2)
      | 73 => read_value_with_instance_variables (fun st => read_value fuel st) s1
      | 108 =>
        match read_bignum s1 with
        | .error e => .error e
        | .ok (id, s2) => .ok (.BigNum id, s2)
      | 47 =>
        match read_regexp s1 with
        | .error e => .error e
        | .ok (id, s2) => .ok (.RegExp id, s2)
      | 83 =>
        match read_struct (fun st => read_value fuel st) s1 with
        | .error e => .error e
        | .ok (id, s2) => .ok (.Struct id, s2)
      | 111 =>
        match read_object (fun st => read_value fuel st) s1 with
        | .error e => .error e
        | .ok (id, s2) => .ok (.Object id, s2)
      | 67 =>
        match read_user_class (fun st => read_value fuel st) s1 with
        | .error e => .error e
        | .ok (id, s2) => .ok (.UserClass id, s2)
      | 117 =>
        match read_user_defined (fun st => read_value fuel st) s1 with
        | .error e => .error e
        | .ok (id, s2) => .ok (.UserDefined id, s2)
      | 85 =>
        match read_user_marshal (fun st => read_value fuel st) s1 with
        | .error e => .error e
        | .ok (id, s2) => .ok (.UserMarshal id, s2)
      | 100 => .error .ParserError
      | _ => .error .ParserError

/-- `Loader::load`: read the two version bytes (any major above 4 or minor
above 8 is a `ParserError`), read one value, return the `Root` built from
it and the final tables. -/
def load (input : List Nat) : Except LoadError Root :=
  match input with
  | b0 :: b1 :: rest =>
    if 4 < b0 ∨ 8 < b1 then .error .ParserError
    else
      match read_value (rest.length + 1) ⟨rest, [], []⟩ with
      | .error e => .error e
      | .ok (v, s) => .ok (Root.new v s.symbols s.objects)
  | _ => .error .IoError

/-- `DumpError` from `src/encode/dump.rs` (messages omitted), extended
with `Panic` and the fuel artifact `OutOfFuel` exactly as for the
loader. -/
inductive DumpError where
  | IoError
  | EncoderError
  | Panic
  | OutOfFuel
deriving DecidableEq, Repr

/-- The `Dumper`'s state: the bytes written so far to the sink, and the
already-written bit vectors for symbols and objects. -/
structure Dumper where
  output : List Nat
  symbols : List Bool
  objects : List Bool
deriving DecidableEq, Repr

/-- `Dumper::write`: append bytes to the sink. -/
def wr (d : Dumper) (bs : List Nat) : Dumper :=
  { d with output := d.output ++ bs }

/-- `Dumper::write_byte_sequence`: the length must fit an `i32`
(otherwise `EncoderError`), then fixnum length plus the raw bytes. -/
def write_byte_sequence (d : Dumper) (bs : List Nat) : Except DumpError Dumper :=
  if (2 ^ 31 : Nat) ≤ bs.length then .error .EncoderError
  else .ok (wr d (write_fixnum (bs.length : Int) ++ bs))

/-- `Dumper::write_symbol`: an already-written symbol becomes `;` plus its
fixnum id (the id conversion `try_into().unwrap()` panics beyond
`i32::MAX`); a fresh one is marked written and emitted as `:` plus its
length-prefixed name (a missing table entry is an `unwrap` panic). -/
def write_symbol (root : Root) (d : Dumper) (symbol_id : Nat) :
    Except DumpError Dumper :=
  match d.symbols.get? symbol_id with
  | none => .error .Panic
  | some true =>
    if (2 ^ 31 : Nat) ≤ symbol_id then .error .Panic
    else .ok (wr d (59 :: write_fixnum (symbol_id : Int)))
  | some false =>
    let d1 := { d with symbols := d.symbols.set symbol_id true }
    match root.get_symbol symbol_id with
    | none => .error .Panic
    | some name => write_byte_sequence (wr d1 [58]) name

/-- `Dumper::write_object_link`: `@` plus the fixnum object id. -/
def write_object_link (d : Dumper) (object_id : Nat) : Except DumpError Dumper :=
  if (2 ^ 31 : Nat) ≤ object_id then .error .Panic
  else .ok (wr d (64 :: write_fixnum (object_id : Int)))

/-- The element loop of `Dumper::write_array`. -/
def dump_values (dv : Dumper → RubyValue → Except DumpError Dumper)
    (d : Dumper) : List RubyValue → Except DumpError Dumper
  | [] => .ok d
  | v :: vs =>
    match dv d v with
    | .error e => .error e
    | .ok d1 => dump_values dv d1 vs

/-- `Dumper::write_value_pairs`: pair count as fixnum (an `i32` overflow
of the count is `EncoderError`), then each key and value.  The model
iterates the association list in insertion order (see module comment on
`HashMap` iteration order). -/
def write_value_pairs (dv : Dumper → RubyValue → Except DumpError Dumper)
    (d : Dumper) (pairs : List (RubyValue × RubyValue)) :
    Except DumpError Dumper :=
  if (2 ^ 31 : Nat) ≤ pairs.length then .error .EncoderError
  else
    let rec go (d : Dumper) : List (RubyValue × RubyValue) → Except DumpError Dumper
      | [] => .ok d
      | (k, v) :: t =>
        match dv d k with
        | .error e => .error e
        | .ok d1 =>
          match dv d1 v with
          | .error e => .error e
          | .ok d2 => go d2 t
    go (wr d (write_fixnum (pairs.length : Int))) pairs

/-- `Dumper::write_value_pairs_with_symbol_keys`: like
`write_value_pairs` with `write_symbol` for each key. -/
def write_symbol_pairs (root : Root)
    (dv : Dumper → RubyValue → Except DumpError Dumper)
    (d : Dumper) (pairs : List (Nat × RubyValue)) : Except DumpError Dumper :=
  if (2 ^ 31 : Nat) ≤ pairs.length then .error .EncoderError
  else
    let rec go (d : Dumper) : List (Nat × RubyValue) → Except DumpError Dumper
      | [] => .ok d
      | (k, v) :: t =>
        match write_symbol root d k with
        | .error e => .error e
        | .ok d1 =>
          match dv d1 v with
          | .error e => .error e
          | .ok d2 => go d2 t
    go (wr d (write_fixnum (pairs.length : Int))) pairs

/-- `Dumper::write_array`: an already-written slot becomes an object
link; otherwise tag `[`, mark written, fixnum length, then the
elements.  A missing slot, a missing object or a non-array object is a
panic (`Vec` index / `unwrap` / `as_array`). -/
def write_array (dv : Dumper → RubyValue → Except DumpError Dumper)
    (root : Root) (d : Dumper) (object_id : Nat) : Except DumpError Dumper :=
  match d.objects.get? object_id with
  | none => .error .Panic
  | some true => write_object_link d object_id
  | some false =>
    let d1 := wr d [91]
    let d2 := { d1 with objects := d1.objects.set object_id true }
    match root.get_object object_id with
    | some (.Array elems) =>
      if (2 ^ 31 : Nat) ≤ elems.length then .error .EncoderError
      else dump_values dv (wr d2 (write_fixnum (elems.length : Int))) elems
    | some _ => .error .Panic
    | none => .error .Panic

/-- `Dumper::write_float`: tag `f`, mark written, then the literal as a
byte sequence.  The source formats the stored `f64` (`nan` for NaN);
the model's Float object already holds the literal bytes (see module
comment), which it re-emits. -/
def write_float (root : Root) (d : Dumper) (object_id : Nat) :
    Except DumpError Dumper :=
  match d.objects.get? object_id with
  | none => .error .Panic
  | some true => write_object_link d object_id
  | some false =>
    let d1 := wr d [102]
    let d2 := { d1 with objects := d1.objects.set object_id true }
    match root.get_object object_id with
    | some (.Float lit) => write_byte_sequence d2 lit
    | some _ => .error .Panic
    | none => .error .Panic

/-- `Dumper::write_hash`. -/
def write_hash (dv : Dumper → RubyValue → Except DumpError Dumper)
    (root : Root) (d : Dumper) (object_id : Nat) : Except DumpError Dumper :=
  match d.objects.get? object_id with
  | none => .error .Panic
  | some true => write_object_link d object_id
  | some false =>
    let d1 := wr d [123]
    let d2 := { d1 with objects := d1.objects.set object_id true }
    match root.get_object object_id with
    | some (.Hash pairs) => write_value_pairs dv d2 pairs
    | some _ => .error .Panic
    | none => .error .Panic

/-- `Dumper::write_hash_with_default`: the mapping first, then the
default value. -/
def write_hash_with_default (dv : Dumper → RubyValue → Except DumpError Dumper)
    (root : Root) (d : Dumper) (object_id : Nat) : Except DumpError Dumper :=
  match d.objects.get? object_id with
  | none => .error .Panic
  | some true => write_object_link d object_id
  | some false =>
    let d1 := wr d [125]
    let d2 := { d1 with objects := d1.objects.set object_id true }
    match root.get_object object_id with
    | some (.HashWithDefault pairs default) =>
      match write_value_pairs dv d2 pairs with
      | .error e => .error e
      | .ok d3 => dv d3 default
    | some _ => .error .Panic
    | none => .error .Panic

/-- `Dumper::write_class`. -/
def write_class (root : Root) (d : Dumper) (object_id : Nat) :
    Except DumpError Dumper :=
  match d.objects.get? object_id with
  | none => .error .Panic
  | some true => write_object_link d object_id
  | some false =>
    let d1 := wr d [99]
    let d2 := { d1 with objects := d1.objects.set object_id true }
    match root.get_object object_id with
    | some (.Class name) => write_byte_sequence d2 name
    | some _ => .error .Panic
    | none => .error .Panic

/-- `Dumper::write_module`. -/
def write_module (root : Root) (d : Dumper) (object_id : Nat) :
    Except DumpError Dumper :=
  match d.objects.get? object_id with
  | none => .error .Panic
  | some true => write_object_link d object_id
  | some false =>
    let d1 := wr d [109]
    let d2 := { d1 with objects := d1.objects.set object_id true }
    match root.get_object object_id with
    | some (.Module name) => write_byte_sequence d2 name
    | some _ => .error .Panic
    | none => .error .Panic

/-- `Dumper::write_class_or_module`. -/
def write_class_or_module (root : Root) (d : Dumper) (object_id : Nat) :
    Except DumpError Dumper :=
  match d.objects.get? object_id with
  | none => .error .Panic
  | some true => write_object_link d object_id
  | some false =>
    let d1 := wr d [77]
    let d2 := { d1 with objects := d1.objects.set object_id true }
    match root.get_object object_id with
    | some (.ClassOrModule name) => write_byte_sequence d2 name
    | some _ => .error .Panic
    | none => .error .Panic

/-- `Dumper::write_string`: mark written; `I` first when instance
variables are present, then `"` and the bytes, then the instance-variable
pairs. -/
def write_string (root : Root)
    (dv : Dumper → RubyValue → Except DumpError Dumper)
    (d : Dumper) (object_id : Nat) : Except DumpError Dumper :=
  match d.objects.get? object_id with
  | none => .error .Panic
  | some true => write_object_link d object_id
  | some false =>
    let d1 := { d with objects := d.objects.set object_id true }
    match root.get_object object_id with
    | some (.String bs ivars) =>
      match ivars with
      | none => write_byte_sequence (wr d1 [34]) bs
      | some iv =>
        match write_byte_sequence (wr d1 [73, 34]) bs with
        | .error e => .error e
        | .ok d2 => write_symbol_pairs root dv d2 iv
    | some _ => .error .Panic
    | none => .error .Panic

/-- Little-endian 8-byte representation of a `Nat` below `2^64`
(`i64::to_le_bytes` of the absolute value). -/
def le_bytes_8 (m : Nat) : List Nat :=
  [m % 256, m / 256 % 256, m / 256 ^ 2 % 256, m / 256 ^ 3 % 256,
   m / 256 ^ 4 % 256, m / 256 ^ 5 % 256, m / 256 ^ 6 % 256, m / 256 ^ 7 % 256]

/-- `Dumper::write_bignum`: mark written; tag `l`; sign byte (`+` only
for strictly positive values, so `0` gets `-`); take the absolute
value's little-endian bytes and scan FROM INDEX 0, i.e. from the
low-order end, for the first non-zero byte (running off the end for `0`
is a `Vec` index panic, and `abs()` of `i64::MIN` panics); round the
index down to even; emit `(8 - index) / 2` as fixnum and the bytes from
the index on.  (The source comments describe stripping high-order zero
bytes, but `to_le_bytes` puts the LOW-order byte at index 0.) -/
def write_bignum (root : Root) (d : Dumper) (object_id : Nat) :
    Except DumpError Dumper :=
  match d.objects.get? object_id with
  | none => .error .Panic
  | some true => write_object_link d object_id
  | some false =>
    let d1 := { d with objects := d.objects.set object_id true }
    let d2 := wr d1 [108]
    match root.get_object object_id with
    | some (.BigNum v) =>
      let d3 := wr d2 [if 0 < v then 43 else 45]
      if v = -(2 ^ 63) then .error .Panic
      else
        let bytes := le_bytes_8 v.natAbs
        match bytes.findIdx? (fun b => b ≠ 0) with
        | none => .error .Panic
        | some idx0 =>
          let idx := if idx0 % 2 = 1 then idx0 - 1 else idx0
          .ok (wr d3 (write_fixnum (((8 - idx) / 2 : Nat) : Int) ++ bytes.drop idx))
    | some _ => .error .Panic
    | none => .error .Panic

/-- `Dumper::write_regexp`: mark written; optional `I`; `/`, the pattern,
one options byte (`i8` reinterpreted as `u8`); then the pairs. -/
def write_regexp (root : Root)
    (dv : Dumper → RubyValue → Except DumpError Dumper)
    (d : Dumper) (object_id : Nat) : Except DumpError Dumper :=
  match d.objects.get? object_id with
  | none => .error .Panic
  | some true => write_object_link d object_id
  | some false =>
    let d1 := { d with objects := d.objects.set object_id true }
    match root.get_object object_id with
    | some (.RegExp pattern options ivars) =>
      let option_byte : Nat := if options < 0 then (options + 256).toNat else options.toNat
      match ivars with
      | none =>
        match write_byte_sequence (wr d1 [47]) pattern with
        | .error e => .error e
        | .ok d2 => .ok (wr d2 [option_byte])
      | some iv =>
        match write_byte_sequence (wr d1 [73, 47]) pattern with
        | .error e => .error e
        | .ok d2 => write_symbol_pairs root dv (wr d2 [option_byte]) iv
    | some _ => .error .Panic
    | none => .error .Panic

/-- `Dumper::write_struct`: mark written; `S`, the name symbol, the
symbol-keyed members. -/
def write_struct (root : Root)
    (dv : Dumper → RubyValue → Except DumpError Dumper)
    (d : Dumper) (object_id : Nat) : Except DumpError Dumper :=
  match d.objects.get? object_id with
  | none => .error .Panic
  | some true => write_object_link d object_id
  | some false =>
    let d1 := { d with objects := d.objects.set object_id true }
    match root.get_object object_id with
    | some (.Struct name members) =>
      match write_symbol root (wr d1 [83]) name with
      | .error e => .error e
      | .ok d2 => write_symbol_pairs root dv d2 members
    | some _ => .error .Panic
    | none => .error .Panic

/-- `Dumper::write_object`: mark written; `o`, the class-name symbol, the
symbol-keyed instance variables. -/
def write_object (root : Root)
    (dv : Dumper → RubyValue → Except DumpError Dumper)
    (d : Dumper) (object_id : Nat) : Except DumpError Dumper :=
  match d.objects.get? object_id with
  | none => .error .Panic
  | some true => write_object_link d object_id
  | some false =>
    let d1 := { d with objects := d.objects.set object_id true }
    match root.get_object object_id with
    | some (.Object class_name ivars) =>
      match write_symbol root (wr d1 [111]) class_name with
      | .error e => .error e
      | .ok d2 => write_symbol_pairs root dv d2 ivars
    | some _ => .error .Panic
    | none => .error .Panic

/-- `Dumper::write_user_class`: mark written; optional `I`; `C`, the name
symbol, the wrapped value; then the pairs. -/
def write_user_class (root : Root)
    (dv : Dumper → RubyValue → Except DumpError Dumper)
    (d : Dumper) (object_id : Nat) : Except DumpError Dumper :=
  match d.objects.get? object_id with
  | none => .error .Panic
  | some true => write_object_link d object_id
  | some false =>
    let d1 := { d with objects := d.objects.set object_id true }
    match root.get_object object_id with
    | some (.UserClass name wrapped ivars) =>
      let d2 := match ivars with
        | none => wr d1 [67]
        | some _ => wr d1 [73, 67]
      match write_symbol root d2 name with
      | .error e => .error e
      | .ok d3 =>
        match dv d3 wrapped with
        | .error e => .error e
        | .ok d4 =>
          match ivars with
          | none => .ok d4
          | some iv => write_symbol_pairs root dv d4 iv
    | some _ => .error .Panic
    | none => .error .Panic

/-- `Dumper::write_user_defined`: mark written; optional `I`; `u`, the
class-name symbol, the opaque byte payload; then the pairs. -/
def write_user_defined (root : Root)
    (dv : Dumper → RubyValue → Except DumpError Dumper)
    (d : Dumper) (object_id : Nat) : Except DumpError Dumper :=
  match d.objects.get? object_id with
  | none => .error .Panic
  | some true => write_object_link d object_id
  | some false =>
    let d1 := { d with objects := d.objects.set object_id true }
    match root.get_object object_id with
    | some (.UserDefined class_name data ivars) =>
      let d2 := match ivars with
        | none => wr d1 [117]
        | some _ => wr d1 [73, 117]
      match write_symbol root d2 class_name with
      | .error e => .error e
      | .ok d3 =>
        match write_byte_sequence d3 data with
        | .error e => .error e
        | .ok d4 =>
          match ivars with
          | none => .ok d4
          | some iv => write_symbol_pairs root dv d4 iv
    | some _ => .error .Panic
    | none => .error .Panic

/-- `Dumper::write_user_marshal`: mark written; `U`, the class-name
symbol, the wrapped value. -/
def write_user_marshal (root : Root)
    (dv : Dumper → RubyValue → Except DumpError Dumper)
    (d : Dumper) (object_id : Nat) : Except DumpError Dumper :=
  match d.objects.get? object_id with
  | none => .error .Panic
  | some true => write_object_link d object_id
  | some false =>
    let d1 := { d with objects := d.objects.set object_id true }
    match root.get_object object_id with
    | some (.UserMarshal class_name wrapped) =>
      match write_symbol root (wr d1 [85]) class_name with
      | .error e => .error e
      | .ok d2 => dv d2 wrapped
    | some _ => .error .Panic
    | none => .error .Panic

/-- `Dumper::dump_value`: dispatch on the value variant.  Dumping an
`Uninitialized` value is the source's
`panic!("Tried to dump uninitialized object")`, modelled by `Panic`. -/
def dump_value : Nat → Root → Dumper → RubyValue → Except DumpError Dumper
  | 0, _, _, _ => .error .OutOfFuel
  | fuel + 1, root, d, value =>
    match value with
    | .Uninitialized _ => .error .Panic
    | .Nil => .ok (wr d [48])
    | .Boolean true => .ok (wr d [84])
    | .Boolean false => .ok (wr d [70])
    | .FixNum n => .ok (wr d (105 :: write_fixnum n))
    | .Symbol id => write_symbol root d id
    | .Array id => write_array (fun d2 v2 => dump_value fuel root d2 v2) root d id
    | .Float id => write_float root d id
    | .Hash id => write_hash (fun d2 v2 => dump_value fuel root d2 v2) root d id
    | .HashWithDefault id =>
      write_hash_with_default (fun d2 v2 => dump_value fuel root d2 v2) root d id
    | .Class id => write_class root d id
    | .Module id => write_module root d id
    | .ClassOrModule id => write_class_or_module root d id
    | .String id => write_string root (fun d2 v2 => dump_value fuel root d2 v2) d id
    | .BigNum id => write_bignum root d id
    | .RegExp id => write_regexp root (fun d2 v2 => dump_value fuel root d2 v2) d id
    | .Struct id => write_struct root (fun d2 v2 => dump_value fuel root d2 v2) d id
    | .Object id => write_object root (fun d2 v2 => dump_value fuel root d2 v2) d id
    | .UserClass id =>
      write_user_class root (fun d2 v2 => dump_value fuel root d2 v2) d id
    | .UserMarshal id =>
      write_user_marshal root (fun d2 v2 => dump_value fuel root d2 v2) d id
    | .UserDefined id =>
      write_user_defined root (fun d2 v2 => dump_value fuel root d2 v2) d id

/-- `Dumper::dump`: reset the bit vectors (the source sizes the object
vector to the object count PLUS ONE), write the `4 8` version preamble,
dump the value, return the sink's contents.  The fuel bounds the nesting
depth: every nested frame through an object slot first sets a fresh bit,
so depth never exceeds `2 * objects + 2` and the fuel cannot run out. -/
def dump (root : Root) (value : RubyValue) : Except DumpError (List Nat) :=
  let d0 : Dumper :=
    ⟨[], List.replicate root.get_symbols.length false,
     List.replicate (root.get_objects.length + 1) false⟩
  match dump_value (2 * root.get_objects.length + 2) root (wr d0 [4, 8]) value with
  | .error e => .error e
  | .ok d => .ok d.output

/-! Claim C1: the failing round-trip input.  The byte stream is a Hash tag
with two wire pairs `{1 => 1, 1 => 2}`; `HashMap::insert` collapses them
to the single pair `1 => 2`, so the decoder accepts the stream but the
encoder emits a one-pair hash.  The divergence is independent of the
unspecified `HashMap` iteration order, since the decoded map holds a
single pair. -/

def c1_input : List Nat := [4, 8, 123, 7, 105, 6, 105, 6, 105, 6, 105, 7]

def c1_root : Root := Root.new (.Hash 0) [] [.Hash [(.FixNum 1, .FixNum 2)]]

def c1_output : List Nat := [4, 8, 123, 6, 105, 6, 105, 7]

/-- The fixnum boundary set of the spec, without `-1`. -/
def c2_values : List Int :=
  [-2147483648, -1073741824, -16777216, -16777215, -33000, -200, -123,
   0, 1, 122, 123, 200, 33000, 16777215, 1073741823, 1073741824, 2147483647]

def c3_root : Root := Root.new (.BigNum 0) [] [.BigNum 65536]

def c3_bytes : List Nat := [4, 8, 108, 43, 8, 1, 0, 0, 0, 0, 0]

def c9_input : List Nat := [4, 8, 91, 7, 58, 6, 97, 58, 6, 97]

def c9_root : Root :=
  Root.new (.Array 0) [[97], [97]] [.Array [.Symbol 0, .Symbol 1]]

/-! The decoding-step invariant for claims C8 and C9.  One decoding step
may only: consume input, append to the symbol table, append object
slots, fill its own freshly pushed slot, and update an existing
non-`Empty` slot with a non-`Empty` object.  `StepOK s1 s2` packages
what the claims need: the symbol table only grows at the end, the object
table only grows, and any `Empty` slot of the final state was already an
`Empty` slot of the initial state (so a run that starts from empty
tables ends with no `Empty` slot at all). -/

def StepOK (s1 s2 : LoaderState) : Prop :=
  (∃ t, s2.symbols = s1.symbols ++ t) ∧
  s1.objects.length ≤ s2.objects.length ∧
  ∀ i, s2.objects.get? i = some RubyObject.Empty →
    i < s1.objects.length ∧ s1.objects.get? i = some RubyObject.Empty

/-! Sanity checks of the fixnum codec against the source's test
vectors, including the mis-decoding of the single-byte negative
markers (`0xFA` is the encoding of `-1` but decodes to `+1`). -/

example : fixnum_from_bytes [0] = .ok (0, []) := by decide
example : fixnum_from_bytes [127] = .ok (122, []) := by decide
example : fixnum_from_bytes [128] = .ok (-123, []) := by decide
example : fixnum_from_bytes [1, 200] = .ok (200, []) := by decide
example : fixnum_from_bytes [255, 56] = .ok (-200, []) := by decide
example : fixnum_from_bytes [2, 232, 128] = .ok (33000, []) := by decide
example : fixnum_from_bytes [254, 24, 127] = .ok (-33000, []) := by decide
example : fixnum_from_bytes [4, 255, 255, 255, 63] = .ok (1073741823, []) := by decide
example : fixnum_from_bytes [252, 0, 0, 0, 192] = .ok (-1073741824, []) := by decide
example : fixnum_from_bytes [4, 0, 0, 0, 64] = .ok (1073741824, []) := by decide
example : write_fixnum 0 = [0] := by decide
example : write_fixnum 122 = [127] := by decide
example : write_fixnum (-123) = [128] := by decide
example : write_fixnum 200 = [1, 200] := by decide
example : write_fixnum (-200) = [255, 56] := by decide
example : write_fixnum 33000 = [2, 232, 128] := by decide
example : write_fixnum (-33000) = [254, 24, 127] := by decide
example : write_fixnum 1073741823 = [4, 255, 255, 255, 63] := by decide
example : write_fixnum (-1073741824) = [252, 0, 0, 0, 192] := by decide
example : write_fixnum (-1) = [250] := by decide
example : fixnum_from_bytes [250] = .ok (1, []) := by decide

/-! The model reproduces every `assert_output_is!` round-trip vector of
the source's dump tests (nil, booleans, the twelve fixnum forms, symbols
and symbol links, arrays, the float literals, hash with default, class,
module, class-or-module, plain and `I`-wrapped strings, both bignums,
regexp, struct, object, user class, user defined, user marshal, and a
plain one-pair hash). -/

example : (List.all [
    [4, 8, 48], [4, 8, 84], [4, 8, 70],
    [4, 8, 105, 0], [4, 8, 105, 127], [4, 8, 105, 128], [4, 8, 105, 1, 200],
    [4, 8, 105, 255, 56], [4, 8, 105, 2, 232, 128], [4, 8, 105, 254, 24, 127],
    [4, 8, 105, 3, 255, 255, 255], [4, 8, 105, 253, 1, 0, 0],
    [4, 8, 105, 4, 255, 255, 255, 63], [4, 8, 105, 252, 0, 0, 0, 192],
    [4, 8, 105, 4, 0, 0, 0, 64],
    [4, 8, 58, 10, 104, 101, 108, 108, 111],
    [4, 8, 91, 7, 58, 10, 104, 101, 108, 108, 111, 59, 0],
    [4, 8, 91, 0], [4, 8, 91, 7, 105, 127, 105, 127],
    [4, 8, 102, 8, 105, 110, 102], [4, 8, 102, 9, 45, 105, 110, 102],
    [4, 8, 102, 8, 110, 97, 110], [4, 8, 102, 9, 50, 46, 53, 53],
    [4, 8, 91, 7, 102, 9, 50, 46, 53, 53, 64, 6],
    [4, 8, 125, 6, 58, 6, 97, 105, 6, 105, 7],
    [4, 8, 99, 9, 84, 101, 115, 116], [4, 8, 109, 9, 84, 101, 115, 116],
    [4, 8, 77, 9, 84, 101, 115, 116], [4, 8, 34, 9, 84, 101, 115, 116],
    [4, 8, 73, 34, 9, 84, 101, 115, 116, 6, 58, 6, 69, 84],
    [4, 8, 108, 43, 9, 185, 163, 56, 151, 34, 38, 54, 0],
    [4, 8, 108, 45, 9, 185, 163, 56, 151, 34, 38, 54, 0],
    [4, 8, 73, 47, 8, 105, 105, 105, 0, 6, 58, 6, 69, 70],
    [4, 8, 83, 58, 9, 84, 101, 115, 116, 6, 58, 6, 97, 105, 6],
    [4, 8, 111, 58, 9, 84, 101, 115, 116, 6, 58, 7, 64, 97, 105, 6],
    [4, 8, 73, 67, 58, 9, 84, 101, 115, 116, 34, 6, 97, 6, 58, 6, 69, 84],
    [4, 8, 73, 117, 58, 9, 84, 101, 115, 116, 6, 49, 6, 58, 6, 69, 70],
    [4, 8, 85, 58, 9, 84, 101, 115, 116, 105, 6],
    [4, 8, 123, 6, 58, 6, 97, 105, 6]] fun bytes =>
    match load bytes with
    | .error _ => false
    | .ok root => decide (dump root root.get_root = .ok bytes)) = true := by
  decide

/-! A self-referential array (`a = []; a << a` is `[ 06 @ 00` on the
wire) decodes through the slot-first allocation into an `Uninitialized`
link to the outer slot, as described for the `@` tag. -/

example : load [4, 8, 91, 6, 64, 0] =
    .ok (Root.new (.Array 0) [] [.Array [.Uninitialized 0]]) := by decide

/-- C1: the round-trip law `dump (load B) = B` fails on the code for
accepted streams whose Hash carries more than one wire pair: the stream
`c1_input` (a two-pair hash) is accepted by `load`, but `dump` on the
resulting root produces the one-pair stream `c1_output ≠ c1_input`,
because the source stores hash pairs in an unordered `HashMap`. -/
theorem C1_hash_roundtrip_failure :
    load c1_input = .ok c1_root ∧
    dump c1_root c1_root.get_root = .ok c1_output ∧
    c1_output ≠ c1_input := by
  refine ⟨by decide, by decide, by decide⟩

/-- C2: of the spec's fixnum boundary set, every value EXCEPT `-1`
round-trips through `write_fixnum` / `read_fixnum`; for `-1` the encoder
emits the single byte `0xFA`, which `read_fixnum` mis-decodes to `+1`
(it wrapping-negates the marker byte before reinterpreting it as `i8`),
so the claim fails at `n = -1`. -/
theorem C2_fixnum_boundary :
    (c2_values.all fun n =>
      decide (read_fixnum ⟨write_fixnum n, [], []⟩ = .ok (n, ⟨[], [], []⟩))) = true ∧
    write_fixnum (-1) = [250] ∧
    read_fixnum ⟨[250], [], []⟩ = .ok (1, ⟨[], [], []⟩) ∧
    read_fixnum ⟨write_fixnum (-1), [], []⟩ ≠ .ok (-1, ⟨[], [], []⟩) := by
  refine ⟨by decide, by decide, by decide, by decide⟩

/-- C3: `write_bignum` does not strip zero bytes at the HIGH end of the
little-endian magnitude: it scans `to_le_bytes()` from index 0 and strips
LOW-order zero bytes.  For the root holding `BigNum 65536` (magnitude
bytes `00 00 01 00 00 00 00 00`), the emission is `l + h=3` followed by
`01 00 00 00 00 00` — the two low-order zero bytes are gone and the five
high-order ones remain — and `read_bignum` decodes those bytes back to
`1`, not `65536`. -/
theorem C3_bignum_wrong_end_stripped :
    dump c3_root (.BigNum 0) = .ok c3_bytes ∧
    load c3_bytes = .ok (Root.new (.BigNum 0) [] [.BigNum 1]) ∧
    (1 : Int) ≠ 65536 := by
  refine ⟨by decide, by decide, by decide⟩

/-- C4: a negative length fixnum in front of a length-prefixed byte
sequence makes the decoder PANIC (the source's
`read_fixnum()?.try_into().unwrap()`), not return a `ParserError`: the
stream `4 8 ':' 0x80` (symbol whose length fixnum is `-123`) panics.  The
second half of the claim does hold: a non-negative length exceeding the
available input is an `IoError`, as for `4 8 ':' 7 'a'` (length 2, one
byte left). -/
theorem C4_negative_length_panics :
    fixnum_from_bytes [128] = .ok (-123, []) ∧
    byte_sequence_from_bytes [128] = .error .Panic ∧
    load [4, 8, 58, 128] = .error .Panic ∧
    load [4, 8, 58, 7, 97] = .error .IoError := by
  refine ⟨by decide, by decide, by decide, by decide⟩

/-- C5: `dump_value` on an `Uninitialized` value is the source's
`panic!("Tried to dump uninitialized object")` — a panic, not an
`EncoderError` result: dumping the root whose value is
`Uninitialized 0` panics. -/
theorem C5_dump_uninitialized_panics :
    dump (Root.new (.Uninitialized 0) [] []) (.Uninitialized 0) = .error .Panic := by
  decide

/-- C10: `Root::get_symbol` and `Root::get_object` are `Vec::get`, total
functions returning `Some` exactly below the table length and `None` from
the length on; neither can panic (they are total Lean functions). -/
theorem C10_root_accessors (r : Root) (id : Nat) :
    ((r.get_symbol id).isSome ↔ id < r.symbols.length) ∧
    (r.get_symbol id = none ↔ r.symbols.length ≤ id) ∧
    ((r.get_object id).isSome ↔ id < r.objects.length) ∧
    (r.get_object id = none ↔ r.objects.length ≤ id) := by
  have hs : r.get_symbol id = r.symbols.get? id := rfl
  have ho : r.get_object id = r.objects.get? id := rfl
  refine ⟨?_, ?_, ?_, ?_⟩
  · rw [hs, Option.isSome_iff_ne_none, ne_eq, List.get?_eq_none, Nat.not_le]
  · rw [hs, List.get?_eq_none]
  · rw [ho, Option.isSome_iff_ne_none, ne_eq, List.get?_eq_none, Nat.not_le]
  · rw [ho, List.get?_eq_none]

/-- C6: when the decoder reads `@` followed by fixnum `k`: a negative `k`
or a `k` with no table entry (`get?` is `none`, i.e. `k` at or beyond the
table length) fails with `ParserError`; otherwise slot `k`'s object is
mapped through `link_value`, which turns an `Empty` slot into
`Uninitialized k` and every other object variant into the matching value
variant carrying `k`. -/
theorem C6_object_link {s : LoaderState} {k : Int} {rest : List Nat}
    (h : fixnum_from_bytes s.input = .ok (k, rest)) :
    (k < 0 → read_object_link s = .error .ParserError) ∧
    (0 ≤ k → s.objects.get? k.toNat = none → read_object_link s = .error .ParserError) ∧
    (∀ obj, 0 ≤ k → s.objects.get? k.toNat = some obj →
        read_object_link s = .ok (link_value obj k.toNat, { s with input := rest })) ∧
    (∀ id, link_value .Empty id = .Uninitialized id) ∧
    (∀ id elems, link_value (.Array elems) id = .Array id) ∧
    (∀ id lit, link_value (.Float lit) id = .Float id) ∧
    (∀ id pairs, link_value (.Hash pairs) id = .Hash id) ∧
    (∀ id pairs dflt, link_value (.HashWithDefault pairs dflt) id = .HashWithDefault id) ∧
    (∀ id nm, link_value (.Class nm) id = .Class id) ∧
    (∀ id nm, link_value (.Module nm) id = .Module id) ∧
    (∀ id nm, link_value (.ClassOrModule nm) id = .ClassOrModule id) ∧
    (∀ id bs iv, link_value (.String bs iv) id = .String id) ∧
    (∀ id n, link_value (.BigNum n) id = .BigNum id) ∧
    (∀ id p o iv, link_value (.RegExp p o iv) id = .RegExp id) ∧
    (∀ id nm mem, link_value (.Struct nm mem) id = .Struct id) ∧
    (∀ id cn iv, link_value (.Object cn iv) id = .Object id) ∧
    (∀ id nm w iv, link_value (.UserClass nm w iv) id = .UserClass id) ∧
    (∀ id cn dt iv, link_value (.UserDefined cn dt iv) id = .UserDefined id) ∧
    (∀ id cn w, link_value (.UserMarshal cn w) id = .UserMarshal id) := by
  unfold read_object_link
  rw [h]
  dsimp only
  refine ⟨?_, ?_, ?_, fun _ => rfl, fun _ _ => rfl, fun _ _ => rfl, fun _ _ => rfl,
    fun _ _ _ => rfl, fun _ _ => rfl, fun _ _ => rfl, fun _ _ => rfl,
    fun _ _ _ => rfl, fun _ _ => rfl, fun _ _ _ _ => rfl, fun _ _ _ => rfl,
    fun _ _ _ => rfl, fun _ _ _ _ => rfl, fun _ _ _ _ => rfl, fun _ _ _ => rfl⟩
  · intro hk
    rw [if_pos hk]
  · intro hk hnone
    rw [if_neg (by omega), hnone]
  · intro obj hk hsome
    rw [if_neg (by omega), hsome]

/-- Witness for C6 at a concrete input: fixnum `0` linking to an existing
`Array` slot. -/
theorem C6_object_link_witness :
    read_object_link ⟨[0], [], [RubyObject.Array []]⟩ =
      .ok (RubyValue.Array 0, ⟨[], [], [RubyObject.Array []]⟩) := by
  have h := @C6_object_link ⟨[0], [], [RubyObject.Array []]⟩ 0 [] (by decide)
  exact h.2.2.1 (RubyObject.Array []) (by decide) (by decide)

/-- C7: the `I` tag dispatches to
`read_value_with_instance_variables`, which reads the wrapped value and
then the symbol-keyed pair map; the map is installed into the target
object when the wrapped value is a `String`, `RegExp`, `UserClass` or
`UserDefined`, and decoding fails with `ParserError` for every other
value kind (`Nil`, `Boolean`, `FixNum`, `Symbol`, `Array`, `BigNum`,
`Class`, `Module`, `ClassOrModule`, `Float`, `Hash`, `HashWithDefault`,
`Object`, `Struct`, `UserMarshal`, `Uninitialized`). -/
theorem C7_instance_variable_targets
    {rv : LoaderState → Except LoadError (RubyValue × LoaderState)}
    {s s1 s2 : LoaderState} {v : RubyValue} {ivars : List (Nat × RubyValue)}
    (h1 : rv s = .ok (v, s1))
    (h2 : read_value_pairs_symbol_keys rv s1 = .ok (ivars, s2)) :
    (∀ fuel rest syms objs,
        read_value (fuel + 1) ⟨73 :: rest, syms, objs⟩ =
          read_value_with_instance_variables (fun st => read_value fuel st)
            ⟨rest, syms, objs⟩) ∧
    (∀ id bs old, v = .String id → s2.objects.get? id = some (.String bs old) →
        read_value_with_instance_variables rv s =
          .ok (v, set_object s2 id (.String bs (some ivars)))) ∧
    (∀ id p o old, v = .RegExp id → s2.objects.get? id = some (.RegExp p o old) →
        read_value_with_instance_variables rv s =
          .ok (v, set_object s2 id (.RegExp p o (some ivars)))) ∧
    (∀ id nm w old, v = .UserClass id → s2.objects.get? id = some (.UserClass nm w old) →
        read_value_with_instance_variables rv s =
          .ok (v, set_object s2 id (.UserClass nm w (some ivars)))) ∧
    (∀ id cn dt old, v = .UserDefined id → s2.objects.get? id = some (.UserDefined cn dt old) →
        read_value_with_instance_variables rv s =
          .ok (v, set_object s2 id (.UserDefined cn dt (some ivars)))) ∧
    (v = .Nil → read_value_with_instance_variables rv s = .error .ParserError) ∧
    (∀ b, v = .Boolean b → read_value_with_instance_variables rv s = .error .ParserError) ∧
    (∀ n, v = .FixNum n → read_value_with_instance_variables rv s = .error .ParserError) ∧
    (∀ id, v = .Symbol id → read_value_with_instance_variables rv s = .error .ParserError) ∧
    (∀ id, v = .Array id → read_value_with_instance_variables rv s = .error .ParserError) ∧
    (∀ id, v = .BigNum id → read_value_with_instance_variables rv s = .error .ParserError) ∧
    (∀ id, v = .Class id → read_value_with_instance_variables rv s = .error .ParserError) ∧
    (∀ id, v = .Module id → read_value_with_instance_variables rv s = .error .ParserError) ∧
    (∀ id, v = .ClassOrModule id → read_value_with_instance_variables rv s = .error .ParserError) ∧
    (∀ id, v = .Float id → read_value_with_instance_variables rv s = .error .ParserError) ∧
    (∀ id, v = .Hash id → read_value_with_instance_variables rv s = .error .ParserError) ∧
    (∀ id, v = .HashWithDefault id → read_value_with_instance_variables rv s = .error .ParserError) ∧
    (∀ id, v = .Object id → read_value_with_instance_variables rv s = .error .ParserError) ∧
    (∀ id, v = .Struct id → read_value_with_instance_variables rv s = .error .ParserError) ∧
    (∀ id, v = .UserMarshal id → read_value_with_instance_variables rv s = .error .ParserError) ∧
    (∀ id, v = .Uninitialized id → read_value_with_instance_variables rv s = .error .ParserError) := by
  refine ⟨fun fuel rest syms objs => rfl, ?_, ?_, ?_, ?_, ?_, ?_, ?_, ?_, ?_, ?_,
    ?_, ?_, ?_, ?_, ?_, ?_, ?_, ?_, ?_, ?_⟩
  · intro id bs old hv hget
    subst hv
    simp only [read_value_with_instance_variables, h1, h2, hget]
  · intro id p o old hv hget
    subst hv
    simp only [read_value_with_instance_variables, h1, h2, hget]
  · intro id nm w old hv hget
    subst hv
    simp only [read_value_with_instance_variables, h1, h2, hget]
  · intro id cn dt old hv hget
    subst hv
    simp only [read_value_with_instance_variables, h1, h2, hget]
  · intro hv
    subst hv
    simp only [read_value_with_instance_variables, h1, h2]
  all_goals
    intro id hv
    subst hv
    simp only [read_value_with_instance_variables, h1, h2]

/-- Witness for C7 at a concrete input: the body of the test stream
`I"\x06a\x06:\x06ET` (an `I`-wrapped string `"a"` with `{:E => true}`). -/
theorem C7_instance_variable_targets_witness :
    read_value_with_instance_variables (fun st => read_value 5 st)
        ⟨[34, 6, 97, 6, 58, 6, 69, 84], [], []⟩ =
      .ok (RubyValue.String 0,
        set_object ⟨[], [[69]], [RubyObject.String [97] none]⟩ 0
          (RubyObject.String [97] (some [(0, RubyValue.Boolean true)]))) := by
  have h := @C7_instance_variable_targets (fun st => read_value 5 st)
      ⟨[34, 6, 97, 6, 58, 6, 69, 84], [], []⟩
      ⟨[6, 58, 6, 69, 84], [], [RubyObject.String [97] none]⟩
      ⟨[], [[69]], [RubyObject.String [97] none]⟩
      (RubyValue.String 0) [(0, RubyValue.Boolean true)]
      (by decide) (by decide)
  exact h.2.1 0 [97] none rfl (by decide)

theorem get?_some_lt {α : Type} {l : List α} {i : Nat} {a : α}
    (h : l.get? i = some a) : i < l.length := by
  by_contra hc
  rw [List.get?_len_le (Nat.le_of_not_lt hc)] at h
  cases h

theorem stepOK_refl (s : LoaderState) : StepOK s s :=
  ⟨⟨[], (List.append_nil _).symm⟩, Nat.le_refl _,
   fun _ h => ⟨get?_some_lt h, h⟩⟩

theorem stepOK_trans {a b c : LoaderState} (h1 : StepOK a b) (h2 : StepOK b c) :
    StepOK a c := by
  obtain ⟨⟨t1, hs1⟩, hl1, he1⟩ := h1
  obtain ⟨⟨t2, hs2⟩, hl2, he2⟩ := h2
  refine ⟨⟨t1 ++ t2, by rw [hs2, hs1, List.append_assoc]⟩, Nat.le_trans hl1 hl2, ?_⟩
  intro i h
  exact he1 i (he2 i h).2

theorem stepOK_same_objects {s1 s2 : LoaderState} (hobj : s2.objects = s1.objects)
    (hsym : ∃ t, s2.symbols = s1.symbols ++ t) : StepOK s1 s2 := by
  refine ⟨hsym, by rw [hobj], ?_⟩
  intro i h
  rw [hobj] at h
  exact ⟨get?_some_lt h, h⟩

theorem stepOK_of_same {s1 s2 : LoaderState} (hsym : s2.symbols = s1.symbols)
    (hobj : s2.objects = s1.objects) : StepOK s1 s2 :=
  stepOK_same_objects hobj ⟨[], by rw [hsym, List.append_nil]⟩

theorem stepOK_push {s s2 : LoaderState} {obj : RubyObject}
    (hsym : ∃ t, s2.symbols = s.symbols ++ t)
    (hobjs : s2.objects = s.objects ++ [obj])
    (hobj : obj ≠ RubyObject.Empty) : StepOK s s2 := by
  refine ⟨hsym, by rw [hobjs]; simp, ?_⟩
  intro i h
  rw [hobjs] at h
  rcases Nat.lt_trichotomy i s.objects.length with hlt | heq | hgt
  · rw [List.get?_append hlt] at h
    exact ⟨hlt, h⟩
  · subst heq
    rw [List.get?_concat_length] at h
    injection h with h2
    exact absurd h2 hobj
  · have hle : (s.objects ++ [obj]).length ≤ i := by
      simp only [List.length_append, List.length_cons, List.length_nil]
      omega
    rw [List.get?_len_le hle] at h
    cases h

theorem stepOK_set_nonEmpty {s1 s2 : LoaderState} {id : Nat} {obj : RubyObject}
    (h : StepOK s1 s2) (hobj : obj ≠ RubyObject.Empty) :
    StepOK s1 { s2 with objects := s2.objects.set id obj } := by
  obtain ⟨hsym, hlen, hemp⟩ := h
  refine ⟨hsym, by simpa using hlen, ?_⟩
  intro i hi
  by_cases hii : id = i
  · subst hii
    by_cases hid : id < s2.objects.length
    · rw [List.get?_set_eq_of_lt _ hid] at hi
      injection hi with hi2
      exact absurd hi2 hobj
    · have hle : (s2.objects.set id obj).length ≤ id := by
        rw [List.length_set]; omega
      rw [List.get?_len_le hle] at hi
      cases hi
  · rw [List.get?_set_ne _ _ hii] at hi
    exact hemp i hi

/-- The slot-first allocation pattern shared by every composite reader:
from `s`, a state `sPush` with one `Empty` pushed (and unchanged
symbols), an arbitrary invariant-respecting middle phase ending in `s3`,
and finally the pushed slot (at index `s.objects.length`) overwritten
with a non-`Empty` object. -/
theorem stepOK_slot_fill {s sPush s3 : LoaderState} {obj : RubyObject}
    (hmid : StepOK sPush s3)
    (hsym : sPush.symbols = s.symbols)
    (hobjs : sPush.objects = s.objects ++ [RubyObject.Empty])
    (hobj : obj ≠ RubyObject.Empty) :
    StepOK s { s3 with objects := s3.objects.set s.objects.length obj } := by
  obtain ⟨⟨t, hs⟩, hlen, hemp⟩ := hmid
  have hlen2 : s.objects.length + 1 ≤ s3.objects.length := by
    rw [hobjs] at hlen
    simpa using hlen
  refine ⟨⟨t, by rw [hs, hsym]⟩, ?_, ?_⟩
  · rw [List.length_set]
    omega
  · intro i hi
    by_cases hii : s.objects.length = i
    · subst hii
      rw [List.get?_set_eq_of_lt _ (by omega)] at hi
      injection hi with hi2
      exact absurd hi2 hobj
    · rw [List.get?_set_ne _ _ hii] at hi
      obtain ⟨hilt, hival⟩ := hemp i hi
      rw [hobjs] at hilt hival
      have hlt : i < s.objects.length := by
        simp only [List.length_append, List.length_cons, List.length_nil] at hilt
        omega
      rw [List.get?_append hlt] at hival
      exact ⟨hlt, hival⟩

/-! State lemmas: each primitive reader leaves the tables untouched
(`read_symbol` appends exactly one entry), and each push-style reader
appends exactly one finished, non-`Empty` object. -/

theorem read_fixnum_state {s : LoaderState} {n : Int} {s2 : LoaderState}
    (h : read_fixnum s = .ok (n, s2)) :
    s2.symbols = s.symbols ∧ s2.objects = s.objects := by
  unfold read_fixnum at h
  split at h
  · cases h
  · cases h
    exact ⟨rfl, rfl⟩

theorem read_byte_sequence_state {s : LoaderState} {bs : List Nat}
    {s2 : LoaderState} (h : read_byte_sequence s = .ok (bs, s2)) :
    s2.symbols = s.symbols ∧ s2.objects = s.objects := by
  unfold read_byte_sequence at h
  split at h
  · cases h
  · cases h
    exact ⟨rfl, rfl⟩

theorem read_symbol_link_state {s : LoaderState} {id : Nat} {s2 : LoaderState}
    (h : read_symbol_link s = .ok (id, s2)) :
    s2.symbols = s.symbols ∧ s2.objects = s.objects := by
  unfold read_symbol_link at h
  split at h
  · cases h
  · split at h
    · cases h
    · split at h
      · cases h
      · cases h
        exact ⟨rfl, rfl⟩

theorem read_object_link_state {s : LoaderState} {v : RubyValue}
    {s2 : LoaderState} (h : read_object_link s = .ok (v, s2)) :
    s2.symbols = s.symbols ∧ s2.objects = s.objects := by
  unfold read_object_link at h
  split at h
  · cases h
  · split at h
    · cases h
    · split at h
      · cases h
      · cases h
        exact ⟨rfl, rfl⟩

theorem read_symbol_step {s : LoaderState} {id : Nat} {s2 : LoaderState}
    (h : read_symbol s = .ok (id, s2)) :
    s2.objects = s.objects ∧ id = s.symbols.length ∧
      ∃ name, s2.symbols = s.symbols ++ [name] := by
  unfold read_symbol at h
  split at h
  · cases h
  · cases h
    exact ⟨rfl, rfl, _, rfl⟩

theorem read_float_stepOK {s : LoaderState} {id : Nat} {s2 : LoaderState}
    (h : read_float s = .ok (id, s2)) : StepOK s s2 := by
  unfold read_float at h
  split at h
  · cases h
  · cases h
    exact stepOK_push ⟨[], by simp⟩ rfl (by simp)

theorem read_class_stepOK {s : LoaderState} {id : Nat} {s2 : LoaderState}
    (h : read_class s = .ok (id, s2)) : StepOK s s2 := by
  unfold read_class at h
  split at h
  · cases h
  · cases h
    exact stepOK_push ⟨[], by simp⟩ rfl (by simp)

theorem read_module_stepOK {s : LoaderState} {id : Nat} {s2 : LoaderState}
    (h : read_module s = .ok (id, s2)) : StepOK s s2 := by
  unfold read_module at h
  split at h
  · cases h
  · cases h
    exact stepOK_push ⟨[], by simp⟩ rfl (by simp)

theorem read_class_or_module_stepOK {s : LoaderState} {id : Nat}
    {s2 : LoaderState} (h : read_class_or_module s = .ok (id, s2)) :
    StepOK s s2 := by
  unfold read_class_or_module at h
  split at h
  · cases h
  · cases h
    exact stepOK_push ⟨[], by simp⟩ rfl (by simp)

theorem read_string_stepOK {s : LoaderState} {id : Nat} {s2 : LoaderState}
    (h : read_string s = .ok (id, s2)) : StepOK s s2 := by
  unfold read_string at h
  split at h
  · cases h
  · cases h
    exact stepOK_push ⟨[], by simp⟩ rfl (by simp)

theorem read_bignum_stepOK {s : LoaderState} {id : Nat} {s2 : LoaderState}
    (h : read_bignum s = .ok (id, s2)) : StepOK s s2 := by
  unfold read_bignum at h
  dsimp only at h
  split at h
  · cases h
  · split at h
    · cases h
    · split at h
      · cases h
      · split at h
        · cases h
        · split at h
          · cases h
          · cases h
            exact stepOK_push ⟨[], by simp⟩ rfl (by simp)

theorem read_regexp_stepOK {s : LoaderState} {id : Nat} {s2 : LoaderState}
    (h : read_regexp s = .ok (id, s2)) : StepOK s s2 := by
  unfold read_regexp at h
  split at h
  · cases h
  · split at h
    · cases h
    · cases h
      exact stepOK_push ⟨[], by simp⟩ rfl (by simp)

/-! Invariant preservation for the element/pair loops and the composite
readers, each parameterized by the recursive value reader `rv` together
with the assumption that `rv` itself respects the invariant. -/

theorem read_values_stepOK
    {rv : LoaderState → Except LoadError (RubyValue × LoaderState)}
    (hrv : ∀ s v s2, rv s = .ok (v, s2) → StepOK s s2) :
    ∀ (n : Nat) (s : LoaderState) (r : List RubyValue) (s2 : LoaderState),
      read_values rv n s = .ok (r, s2) → StepOK s s2 := by
  intro n
  induction n with
  | zero =>
    intro s r s2 h
    unfold read_values at h
    cases h
    exact stepOK_refl s
  | succ n ih =>
    intro s r s2 h
    unfold read_values at h
    split at h
    · cases h
    · rename_i v1 s1 heq1
      split at h
      · cases h
      · rename_i vs s3 heq2
        cases h
        exact stepOK_trans (hrv _ _ _ heq1) (ih _ _ _ heq2)

theorem read_value_pairs_loop_stepOK
    {rv : LoaderState → Except LoadError (RubyValue × LoaderState)}
    (hrv : ∀ s v s2, rv s = .ok (v, s2) → StepOK s s2) :
    ∀ (n : Nat) (s : LoaderState) (acc r : List (RubyValue × RubyValue))
      (s2 : LoaderState),
      read_value_pairs_loop rv n s acc = .ok (r, s2) → StepOK s s2 := by
  intro n
  induction n with
  | zero =>
    intro s acc r s2 h
    unfold read_value_pairs_loop at h
    cases h
    exact stepOK_refl s
  | succ n ih =>
    intro s acc r s2 h
    unfold read_value_pairs_loop at h
    split at h
    · cases h
    · rename_i k s1 heq1
      split at h
      · cases h
      · rename_i v s3 heq2
        exact stepOK_trans (hrv _ _ _ heq1)
          (stepOK_trans (hrv _ _ _ heq2) (ih _ _ _ _ h))

theorem read_value_pairs_stepOK
    {rv : LoaderState → Except LoadError (RubyValue × LoaderState)}
    (hrv : ∀ s v s2, rv s = .ok (v, s2) → StepOK s s2)
    {s : LoaderState} {r : List (RubyValue × RubyValue)} {s2 : LoaderState}
    (h : read_value_pairs rv s = .ok (r, s2)) : StepOK s s2 := by
  unfold read_value_pairs at h
  split at h
  · cases h
  · rename_i n s1 heq1
    split at h
    · cases h
    · obtain ⟨hsym, hobj⟩ := read_fixnum_state heq1
      exact stepOK_trans (stepOK_of_same hsym hobj)
        (read_value_pairs_loop_stepOK hrv _ _ _ _ _ h)

theorem read_symbol_pairs_loop_stepOK
    {rv : LoaderState → Except LoadError (RubyValue × LoaderState)}
    (hrv : ∀ s v s2, rv s = .ok (v, s2) → StepOK s s2) :
    ∀ (n : Nat) (s : LoaderState) (acc r : List (Nat × RubyValue))
      (s2 : LoaderState),
      read_symbol_pairs_loop rv n s acc = .ok (r, s2) → StepOK s s2 := by
  intro n
  induction n with
  | zero =>
    intro s acc r s2 h
    unfold read_symbol_pairs_loop at h
    cases h
    exact stepOK_refl s
  | succ n ih =>
    intro s acc r s2 h
    unfold read_symbol_pairs_loop at h
    split at h
    · cases h
    · rename_i sid s1 heq1
      split at h
      · cases h
      · rename_i v s3 heq2
        exact stepOK_trans (hrv _ _ _ heq1)
          (stepOK_trans (hrv _ _ _ heq2) (ih _ _ _ _ h))
    · cases h

theorem read_value_pairs_symbol_keys_stepOK
    {rv : LoaderState → Except LoadError (RubyValue × LoaderState)}
    (hrv : ∀ s v s2, rv s = .ok (v, s2) → StepOK s s2)
    {s : LoaderState} {r : List (Nat × RubyValue)} {s2 : LoaderState}
    (h : read_value_pairs_symbol_keys rv s = .ok (r, s2)) : StepOK s s2 := by
  unfold read_value_pairs_symbol_keys at h
  split at h
  · cases h
  · rename_i n s1 heq1
    split at h
    · cases h
    · obtain ⟨hsym, hobj⟩ := read_fixnum_state heq1
      exact stepOK_trans (stepOK_of_same hsym hobj)
        (read_symbol_pairs_loop_stepOK hrv _ _ _ _ _ h)

theorem read_array_stepOK
    {rv : LoaderState → Except LoadError (RubyValue × LoaderState)}
    (hrv : ∀ s v s2, rv s = .ok (v, s2) → StepOK s s2)
    {s : LoaderState} {id : Nat} {s2 : LoaderState}
    (h : read_array rv s = .ok (id, s2)) : StepOK s s2 := by
  unfold read_array at h
  dsimp only at h
  split at h
  · cases h
  · rename_i len s1 heq1
    split at h
    · cases h
    · split at h
      · cases h
      · rename_i elems s3 heq2
        cases h
        obtain ⟨hsym, hobj⟩ := read_fixnum_state heq1
        rw [show s1.objects.length = s.objects.length from by rw [hobj]]
        exact stepOK_slot_fill (read_values_stepOK hrv _ _ _ _ heq2)
          hsym (by rw [hobj]) (by simp)

theorem read_hash_stepOK
    {rv : LoaderState → Except LoadError (RubyValue × LoaderState)}
    (hrv : ∀ s v s2, rv s = .ok (v, s2) → StepOK s s2)
    {s : LoaderState} {id : Nat} {s2 : LoaderState}
    (h : read_hash rv s = .ok (id, s2)) : StepOK s s2 := by
  unfold read_hash at h
  dsimp only at h
  split at h
  · cases h
  · rename_i pairs s3 heq1
    cases h
    exact stepOK_slot_fill (read_value_pairs_stepOK hrv heq1) rfl rfl (by simp)

theorem read_hash_with_default_stepOK
    {rv : LoaderState → Except LoadError (RubyValue × LoaderState)}
    (hrv : ∀ s v s2, rv s = .ok (v, s2) → StepOK s s2)
    {s : LoaderState} {id : Nat} {s2 : LoaderState}
    (h : read_hash_with_default rv s = .ok (id, s2)) : StepOK s s2 := by
  unfold read_hash_with_default at h
  dsimp only at h
  split at h
  · cases h
  · rename_i pairs s3 heq1
    split at h
    · cases h
    · rename_i dflt s4 heq2
      cases h
      exact stepOK_slot_fill
        (stepOK_trans (read_value_pairs_stepOK hrv heq1) (hrv _ _ _ heq2))
        rfl rfl (by simp)

theorem read_struct_stepOK
    {rv : LoaderState → Except LoadError (RubyValue × LoaderState)}
    (hrv : ∀ s v s2, rv s = .ok (v, s2) → StepOK s s2)
    {s : LoaderState} {id : Nat} {s2 : LoaderState}
    (h : read_struct rv s = .ok (id, s2)) : StepOK s s2 := by
  unfold read_struct at h
  dsimp only at h
  split at h
  · cases h
  · rename_i name s3 heq1
    split at h
    · cases h
    · rename_i members s4 heq2
      cases h
      exact stepOK_slot_fill
        (stepOK_trans (hrv _ _ _ heq1)
          (read_value_pairs_symbol_keys_stepOK hrv heq2))
        rfl rfl (by simp)
  · cases h

theorem read_object_stepOK
    {rv : LoaderState → Except LoadError (RubyValue × LoaderState)}
    (hrv : ∀ s v s2, rv s = .ok (v, s2) → StepOK s s2)
    {s : LoaderState} {id : Nat} {s2 : LoaderState}
    (h : read_object rv s = .ok (id, s2)) : StepOK s s2 := by
  unfold read_object at h
  dsimp only at h
  split at h
  · cases h
  · rename_i class_name s3 heq1
    split at h
    · cases h
    · rename_i ivars s4 heq2
      cases h
      exact stepOK_slot_fill
        (stepOK_trans (hrv _ _ _ heq1)
          (read_value_pairs_symbol_keys_stepOK hrv heq2))
        rfl rfl (by simp)
  · cases h

theorem read_user_class_stepOK
    {rv : LoaderState → Except LoadError (RubyValue × LoaderState)}
    (hrv : ∀ s v s2, rv s = .ok (v, s2) → StepOK s s2)
    {s : LoaderState} {id : Nat} {s2 : LoaderState}
    (h : read_user_class rv s = .ok (id, s2)) : StepOK s s2 := by
  unfold read_user_class at h
  dsimp only at h
  split at h
  · cases h
  · rename_i name s3 heq1
    split at h
    · cases h
    · rename_i wrapped s4 heq2
      cases h
      exact stepOK_slot_fill
        (stepOK_trans (hrv _ _ _ heq1) (hrv _ _ _ heq2)) rfl rfl (by simp)
  · cases h

theorem read_user_defined_stepOK
    {rv : LoaderState → Except LoadError (RubyValue × LoaderState)}
    (hrv : ∀ s v s2, rv s = .ok (v, s2) → StepOK s s2)
    {s : LoaderState} {id : Nat} {s2 : LoaderState}
    (h : read_user_defined rv s = .ok (id, s2)) : StepOK s s2 := by
  unfold read_user_defined at h
  dsimp only at h
  split at h
  · cases h
  · rename_i class_name s3 heq1
    split at h
    · cases h
    · rename_i data s4 heq2
      cases h
      obtain ⟨hsym, hobj⟩ := read_byte_sequence_state heq2
      exact stepOK_slot_fill
        (stepOK_trans (hrv _ _ _ heq1) (stepOK_of_same hsym hobj))
        rfl rfl (by simp)
  · cases h

theorem read_user_marshal_stepOK
    {rv : LoaderState → Except LoadError (RubyValue × LoaderState)}
    (hrv : ∀ s v s2, rv s = .ok (v, s2) → StepOK s s2)
    {s : LoaderState} {id : Nat} {s2 : LoaderState}
    (h : read_user_marshal rv s = .ok (id, s2)) : StepOK s s2 := by
  unfold read_user_marshal at h
  dsimp only at h
  split at h
  · cases h
  · rename_i class_name s3 heq1
    split at h
    · cases h
    · rename_i wrapped s4 heq2
      cases h
      exact stepOK_slot_fill
        (stepOK_trans (hrv _ _ _ heq1) (hrv _ _ _ heq2)) rfl rfl (by simp)
  · cases h

theorem read_value_with_instance_variables_stepOK
    {rv : LoaderState → Except LoadError (RubyValue × LoaderState)}
    (hrv : ∀ s v s2, rv s = .ok (v, s2) → StepOK s s2)
    {s : LoaderState} {v : RubyValue} {s2 : LoaderState}
    (h : read_value_with_instance_variables rv s = .ok (v, s2)) :
    StepOK s s2 := by
  unfold read_value_with_instance_variables at h
  split at h
  · cases h
  · rename_i value s1 heq1
    split at h
    · cases h
    · rename_i ivars s3 heq2
      have hmid : StepOK s s3 :=
        stepOK_trans (hrv _ _ _ heq1)
          (read_value_pairs_symbol_keys_stepOK hrv heq2)
      split at h
      · split at h
        · cases h
          exact stepOK_set_nonEmpty hmid (by simp)
        · cases h
        · cases h
      · split at h
        · cases h
          exact stepOK_set_nonEmpty hmid (by simp)
        · cases h
        · cases h
      · split at h
        · cases h
          exact stepOK_set_nonEmpty hmid (by simp)
        · cases h
        · cases h
      · split at h
        · cases h
          exact stepOK_set_nonEmpty hmid (by simp)
        · cases h
        · cases h
      · cases h

/-- Every successful `read_value` step respects the invariant: the symbol
table only grows at the end, the object table only grows, and no new
`Empty` slot survives the step. -/
theorem read_value_stepOK :
    ∀ (fuel : Nat) (s : LoaderState) (v : RubyValue) (s2 : LoaderState),
      read_value fuel s = .ok (v, s2) → StepOK s s2 := by
  intro fuel
  induction fuel with
  | zero =>
    intro s v s2 h
    cases h
  | succ fuel ih =>
    intro s v s2 h
    unfold read_value at h
    split at h
    · cases h
    · rename_i b rest
      have hrv : ∀ s v s2,
          (fun st => read_value fuel st) s = .ok (v, s2) → StepOK s s2 :=
        fun a b c hh => ih a b c hh
      dsimp only at h
      have hpre : StepOK s (⟨b, s.symbols, s.objects⟩ : LoaderState) :=
        stepOK_of_same rfl rfl
      split at h
      · -- 48 Nil
        cases h
        exact stepOK_of_same rfl rfl
      · -- 84 true
        cases h
        exact stepOK_of_same rfl rfl
      · -- 70 false
        cases h
        exact stepOK_of_same rfl rfl
      · -- 105 FixNum
        split at h
        · cases h
        · rename_i n s3 heq
          cases h
          obtain ⟨h1, h2⟩ := read_fixnum_state heq
          exact stepOK_of_same h1 h2
      · -- 58 Symbol
        split at h
        · cases h
        · rename_i sid s3 heq
          cases h
          obtain ⟨hobj, -, name, hsym⟩ := read_symbol_step heq
          exact stepOK_same_objects hobj ⟨[name], hsym⟩
      · -- 59 Symbol link
        split at h
        · cases h
        · rename_i sid s3 heq
          cases h
          obtain ⟨h1, h2⟩ := read_symbol_link_state heq
          exact stepOK_of_same h1 h2
      · -- 91 Array
        split at h
        · cases h
        · rename_i oid s3 heq
          cases h
          exact stepOK_trans hpre (read_array_stepOK hrv heq)
      · -- 102 Float
        split at h
        · cases h
        · rename_i oid s3 heq
          cases h
          exact stepOK_trans hpre (read_float_stepOK heq)
      · -- 64 object link
        obtain ⟨h1, h2⟩ := read_object_link_state h
        exact stepOK_of_same h1 h2
      · -- 123 Hash
        split at h
        · cases h
        · rename_i oid s3 heq
          cases h
          exact stepOK_trans hpre (read_hash_stepOK hrv heq)
      · -- 125 HashWithDefault
        split at h
        · cases h
        · rename_i oid s3 heq
          cases h
          exact stepOK_trans hpre (read_hash_with_default_stepOK hrv heq)
      · -- 99 Class
        split at h
        · cases h
        · rename_i oid s3 heq
          cases h
          exact stepOK_trans hpre (read_class_stepOK heq)
      · -- 109 Module
        split at h
        · cases h
        · rename_i oid s3 heq
          cases h
          exact stepOK_trans hpre (read_module_stepOK heq)
      · -- 77 ClassOrModule
        split at h
        · cases h
        · rename_i oid s3 heq
          cases h
          exact stepOK_trans hpre (read_class_or_module_stepOK heq)
      · -- 34 String
        split at h
        · cases h
        · rename_i oid s3 heq
          cases h
          exact stepOK_trans hpre (read_string_stepOK heq)
      · -- 73 instance variables
        exact stepOK_trans hpre
          (read_value_with_instance_variables_stepOK hrv h)
      · -- 108 BigNum
        split at h
        · cases h
        · rename_i oid s3 heq
          cases h
          exact stepOK_trans hpre (read_bignum_stepOK heq)
      · -- 47 RegExp
        split at h
        · cases h
        · rename_i oid s3 heq
          cases h
          exact stepOK_trans hpre (read_regexp_stepOK heq)
      · -- 83 Struct
        split at h
        · cases h
        · rename_i oid s3 heq
          cases h
          exact stepOK_trans hpre (read_struct_stepOK hrv heq)
      · -- 111 Object
        split at h
        · cases h
        · rename_i oid s3 heq
          cases h
          exact stepOK_trans hpre (read_object_stepOK hrv heq)
      · -- 67 UserClass
        split at h
        · cases h
        · rename_i oid s3 heq
          cases h
          exact stepOK_trans hpre (read_user_class_stepOK hrv heq)
      · -- 117 UserDefined
        split at h
        · cases h
        · rename_i oid s3 heq
          cases h
          exact stepOK_trans hpre (read_user_defined_stepOK hrv heq)
      · -- 85 UserMarshal
        split at h
        · cases h
        · rename_i oid s3 heq
          cases h
          exact stepOK_trans hpre (read_user_marshal_stepOK hrv heq)
      · -- 100 Data
        cases h
      · -- unknown tag
        cases h

/-- C8: for every byte stream on which `load` returns `Ok`, no entry of
the returned root's object vector is `Empty` — every placeholder pushed
at slot creation has been overwritten before the decoder returns. -/
theorem C8_no_empty_slots {input : List Nat} {root : Root}
    (h : load input = .ok root) : RubyObject.Empty ∉ root.objects := by
  unfold load at h
  split at h
  · split at h
    · cases h
    · split at h
      · cases h
      · rename_i v s heq
        cases h
        intro hmem
        obtain ⟨i, hi⟩ := List.mem_iff_get?.mp hmem
        have hstep := read_value_stepOK _ _ _ _ heq
        have hlt := (hstep.2.2 i hi).1
        simp at hlt
  · cases h

/-- Witness for C8 at the concrete stream `04 08 30` (nil). -/
theorem C8_no_empty_slots_witness :
    RubyObject.Empty ∉ (Root.new RubyValue.Nil [] []).objects :=
  @C8_no_empty_slots [4, 8, 48] (Root.new RubyValue.Nil [] []) (by decide)

/-- C9 counterexample: the stream `[:a, :a]` that spells the symbol `a`
as a fresh `:` entry twice is accepted by `load`, and the returned symbol
vector `["a", "a"]` is NOT pairwise distinct — `read_symbol` appends
unconditionally, without interning. -/
theorem C9_symbols_not_distinct :
    load c9_input = .ok c9_root ∧ ¬ c9_root.symbols.Nodup := by
  exact ⟨by decide, by decide⟩

/-- C9 as amended: the decoder appends symbol-table entries in appearance
order and never rewrites earlier entries — `read_symbol` pushes exactly
the parsed name at the end and returns the previous length, and a whole
`read_value` step only ever appends to the symbol table.  Distinctness of
the entries is NOT guaranteed for arbitrary accepted streams (see the
counterexample); it holds exactly when the stream spells each distinct
symbol at most once as a fresh `:` entry. -/
theorem C9_symbols_append_only :
    (∀ s id s2, read_symbol s = .ok (id, s2) →
        id = s.symbols.length ∧ ∃ name, s2.symbols = s.symbols ++ [name]) ∧
    (∀ fuel s v s2, read_value fuel s = .ok (v, s2) →
        ∃ t, s2.symbols = s.symbols ++ t) := by
  constructor
  · intro s id s2 h
    obtain ⟨-, hid, name, hsym⟩ := read_symbol_step h
    exact ⟨hid, name, hsym⟩
  · intro fuel s v s2 h
    exact (read_value_stepOK fuel s v s2 h).1

/-- Witness for the amended C9 at a concrete `read_symbol` call. -/
theorem C9_symbols_append_only_witness :
    0 = ([] : List (List Nat)).length ∧
      ∃ name, [[97]] = ([] : List (List Nat)) ++ [name] :=
  C9_symbols_append_only.1 ⟨[6, 97], [], []⟩ 0 ⟨[], [[97]], []⟩ (by decide)

end Marshr
